import Mathlib

/-!
Verification of the prop-probability estimation engine of the
`nba-prize-picks` repository against its specification.

The Python sources are shallowly embedded here:

* per-game stat records (`Game`) are records with parsed numeric fields;
  `min` is `Option ℚ` (`none` models a missing / placeholder / unparsable
  minutes entry, whose `float(...)` conversion raises and is caught);
  `stats` is a total map from stat-key strings to rationals with the
  Python `dict.get(key, 0)` default built into `getStat`;
* float arithmetic is modelled by exact real (`ℝ`) / rational (`ℚ`)
  arithmetic; `np.exp` is `Real.exp`;
* `scipy.stats.gaussian_kde` is modelled by the weighted Gaussian-mixture
  density it documents: `integrate_box_1d (low, high)` is the weighted sum
  of kernel CDF differences, with the standard normal CDF realised as the
  genuine Gaussian integral `stdNormalCDF`;  fitting fails (raises, which
  the source catches into `None`) exactly on degenerate data, modelled as
  non-positive weighted variance;
* Python `round(x, d)` is modelled as round-half-up `roundTo d x`
  (Python uses round-half-even; the two differ only at exact ties, and no
  statement below sits at a tie).
-/

namespace NbaPicks

/-! ### Data model: per-game records (src/prop_analyzer.py) -/

/-- One player's statistics for one game, as consumed by `PropAnalyzer`. -/
@[ext]
structure Game where
  firstname : String
  lastname : String
  /-- parsed minutes; `none` = missing / placeholder / unparsable -/
  minQ : Option ℚ
  /-- numeric stat fields; `getStat` applies the `dict.get(key, 0)` default -/
  stats : String → ℚ

/-- Python `str.strip()` (the names in play only ever carry plain
spaces, so stripping the space character is the full behaviour). -/
def stripChars (s : String) : String :=
  String.mk (((s.data.dropWhile fun c => c = ' ').reverse.dropWhile fun c => c = ' ').reverse)

/-- Source expression `(game.get('player',{}).get('firstname','') + ' ' + ...lastname).strip()`. -/
def Game.playerName (g : Game) : String :=
  stripChars (g.firstname ++ " " ++ g.lastname)

/-- Source expression `float(game.get(stat_key, 0))` where `stat_key` may be `None`
(`dict.get(None, 0)` is `0` since no key is `None`). -/
def getStat (g : Game) : Option String → ℚ
  | none => 0
  | some k => g.stats k

/-- Source expression `float(game.get('min', 0))` for a parsable entry, `0` when absent. -/
def minVal (g : Game) : ℚ := g.minQ.getD 0

/-- Python truthiness of the raw `min` entry (`not game.get('min')`). -/
def minTruthy : Option ℚ → Bool
  | none => false
  | some q => decide (q ≠ 0)

/-- The games of `store` whose concatenated player name matches exactly. -/
def matchedGames (store : List Game) (name : String) : List Game :=
  store.filter (fun g => g.playerName == name)

/-- Games with positive playing time (`if mins > 0`),
the filter used by `get_probability_distribution`. -/
def validGames (games : List Game) : List Game :=
  games.filter (fun g => decide (0 < minVal g))

/-- Mapping `STAT_TYPE_MAPPING`: `'Fantasy Score'` is present but maps to no key. -/
def statTypeMapping : List (String × Option String) :=
  [("Points", some "points"), ("Rebounds", some "totReb"),
   ("Assists", some "assists"), ("Blocks", some "blocks"),
   ("Steals", some "steals"), ("Turnovers", some "turnovers"),
   ("3-PT Made", some "tpm"), ("Fantasy Score", none)]

/-! ### Means and variances (statistics.mean / statistics.stdev) -/

/-- Mean as in `statistics.mean`, over exact rationals (callers guard nonemptiness). -/
def qmean (xs : List ℚ) : ℚ := xs.sum / xs.length

/-- Square of `statistics.stdev`: sample variance with Bessel correction. -/
def sampleVariance (xs : List ℚ) : ℚ :=
  (xs.map (fun x => (x - qmean xs) ^ 2)).sum / ((xs.length : ℚ) - 1)

/-! ### Distribution-estimator weighting (get_probability_distribution) -/

/-- Source expression `np.exp(-i / num_recent_games) if i < num_recent_games else 0.1`,
applied by the source at the forward-chronological enumeration index `i`. -/
noncomputable def recencyWeight (W i : ℕ) : ℝ :=
  if i < W then Real.exp (-(i : ℝ) / (W : ℝ)) else 1 / 10

/-- Source expression `1 - abs(mins - avg_minutes) / (2 * avg_minutes)`. -/
def minutesWeight (avg m : ℚ) : ℚ := 1 - |m - avg| / (2 * avg)

/-- The per-game combined weights `recency_weight * minutes_weight`,
accumulated from enumeration index `i` onwards. -/
noncomputable def combinedWeightsAux (W : ℕ) (avg : ℚ) : ℕ → List ℚ → List ℝ
  | _, [] => []
  | i, m :: ms =>
    (recencyWeight W i * (minutesWeight avg m : ℝ)) :: combinedWeightsAux W avg (i + 1) ms

/-- Combined weights of a filtered minutes series (enumeration starts at 0;
`avg_minutes = mean(minutes)`). -/
noncomputable def combinedWeights (W : ℕ) (mins : List ℚ) : List ℝ :=
  combinedWeightsAux W (qmean mins) 0 mins

/-- Normalization `weights = weights / weights.sum()`. -/
noncomputable def normalizedWeights (W : ℕ) (mins : List ℚ) : List ℝ :=
  (combinedWeights W mins).map (fun w => w / (combinedWeights W mins).sum)

/-! ### Feature Builder (src/logit.py, src/logit_for_all.py)

`expanding().mean().shift()` and `shift().rolling(10, min_periods=1).mean()`
per player group, with `fillna 0`. -/

/-- Feature `historical_avg`: prior expanding mean, `0` for the first game. -/
def historicalAvg (xs : List ℚ) (i : ℕ) : ℚ :=
  if i = 0 then 0 else qmean (xs.take i)

/-- Feature `moving_avg`: trailing 10-game mean of strictly prior games,
`0` for the first game. -/
def movingAvg10 (xs : List ℚ) (i : ℕ) : ℚ :=
  if i = 0 then 0 else qmean ((xs.take i).drop (i - 10))

/-- The four-feature vector of `logit.py` / `logit_for_all.py` at game `i`:
(historical_avg_mins, moving_avg_mins, historical_avg_stat, moving_avg_stat). -/
def featuresAt (mins stats : List ℚ) (i : ℕ) : ℚ × ℚ × ℚ × ℚ :=
  (historicalAvg mins i, movingAvg10 mins i, historicalAvg stats i, movingAvg10 stats i)

/-! ### The Gaussian kernel of `scipy.stats.gaussian_kde` -/

/-- Unnormalized standard normal density. -/
noncomputable def gaussKernel (t : ℝ) : ℝ := Real.exp (-(1 / 2) * t ^ 2)

/-- Standard normal cumulative distribution function. -/
noncomputable def stdNormalCDF (z : ℝ) : ℝ :=
  (∫ t in Set.Iic z, gaussKernel t) / Real.sqrt (2 * Real.pi)

/-! ### Probability model (fitted `gaussian_kde` plus query closure) -/

/-- The state captured by the `prob_over_threshold` closure: the fitted
kde (dataset values, normalized weights, Silverman bandwidth) together
with its integration upper bound `max(values) * 1.5`. -/
structure ProbModel where
  values : List ℝ
  weights : List ℝ
  bandwidth : ℝ
  upperBound : ℝ

/-- Query `kde.integrate_box_1d(low, high)`: the integral of the weighted
Gaussian-mixture density between the bounds. -/
noncomputable def integrateBox (M : ProbModel) (low high : ℝ) : ℝ :=
  ((M.values.zip M.weights).map fun vw =>
    vw.2 * (stdNormalCDF ((high - vw.1) / M.bandwidth)
      - stdNormalCDF ((low - vw.1) / M.bandwidth))).sum

/-- Clamp `min(max(prob, 0), 1)`. -/
noncomputable def clamp01 (p : ℝ) : ℝ := min (max p 0) 1

/-- Query `prob_over_threshold(x)`: integrate from `x` to the stored upper bound
and clamp the result into `[0, 1]`. -/
noncomputable def probOverThreshold (M : ProbModel) (x : ℝ) : ℝ :=
  clamp01 (integrateBox M x M.upperBound)

/-- The body of `prob_over_threshold` applied to the outcome of the
attempted integration: a successful value is clamped, any raised numerical
error is caught and turned into `0.0`. -/
noncomputable def probOverThresholdRun (M : ProbModel) (x : ℝ) : Except Unit ℝ → ℝ
  | Except.ok p => clamp01 p
  | Except.error _ => 0

/-- Maximum `max(values)` (`0` for an empty list; the source only evaluates it on
nonempty value lists). -/
def listMax (l : List ℝ) : ℝ := l.foldr max 0

/-- Python `round(x, d)` (round half up; see the header note on ties). -/
noncomputable def roundTo (d : ℕ) (x : ℝ) : ℝ :=
  (⌊x * 10 ^ d + 1 / 2⌋ : ℤ) / 10 ^ d

/-- Table `get_probabilities_table`: thresholds `np.arange(0, max_val + step, step)`,
each row holding `round(threshold, 1)` and `round(prob_func(threshold), 3)`. -/
noncomputable def probTable (M : ProbModel) (maxVal step : ℚ) : List (ℝ × ℝ) :=
  (List.range (Nat.ceil ((maxVal + step) / step))).map fun k =>
    (roundTo 1 ((Nat.cast k : ℝ) * (Rat.cast step : ℝ)),
     roundTo 3 (probOverThreshold M ((Nat.cast k : ℝ) * (Rat.cast step : ℝ))))

/-! ### Fitting (`get_probability_distribution`) -/

/-- Weighted first moment of the dataset under the given weights. -/
noncomputable def weightedMean (vs ws : List ℝ) : ℝ :=
  ((vs.zip ws).map fun p => p.2 * p.1).sum

/-- Weighted variance of the dataset; `gaussian_kde` raises on a singular
(non-positive) covariance, which the source catches into `None`. -/
noncomputable def weightedVariance (vs ws : List ℝ) : ℝ :=
  ((vs.zip ws).map fun p => p.2 * p.1 ^ 2).sum - weightedMean vs ws ^ 2

/-- Bandwidth `silverman_factor` for one dimension: `(neff * 3/4) ^ (-1/5)`,
scaled by the weighted standard deviation. -/
noncomputable def silvermanBandwidth (vs ws : List ℝ) : ℝ :=
  ((ws.map fun w => w ^ 2).sum⁻¹ * (3 / 4)) ^ (-(1 / 5) : ℝ)
    * Real.sqrt (weightedVariance vs ws)

/-- The elementwise embedding of exact rational stat values into `ℝ`. -/
noncomputable def castList (l : List ℚ) : List ℝ := l.map (Rat.cast : ℚ → ℝ)

/-- Fit `stats.gaussian_kde(values, weights=..., bw_method='silverman')`:
succeeds (returns the fitted mixture) unless the data is degenerate. -/
noncomputable def kdeFit (vs ws : List ℝ) : Option ProbModel :=
  if 0 < weightedVariance vs ws then
    some ⟨vs, ws, silvermanBandwidth vs ws, 3 / 2 * listMax vs⟩
  else none

/-- Fit entry `get_probability_distribution(player_name, stat_type, num_recent_games)`.
Guards in source order: fewer than 10 *matched* games; unmapped stat type;
no games with positive minutes; then the kde fit (whose failure the
source catches into `None`). -/
noncomputable def getProbabilityDistribution (store : List Game) (name : String)
    (statType : String) (W : ℕ) : Option ProbModel :=
  if (matchedGames store name).length < 10 then none
  else
    ((statTypeMapping.lookup statType).join).bind fun key =>
      if (validGames (matchedGames store name)).map (fun g => g.stats key) = [] then none
      else
        kdeFit (castList ((validGames (matchedGames store name)).map fun g => g.stats key))
          (normalizedWeights W ((validGames (matchedGames store name)).map minVal))

/-- Python `max(values)` over the rational stat values (the source only
evaluates it on a nonempty list). -/
def qListMax (l : List ℚ) : ℚ := l.foldr max 0

/-- Table `get_probabilities_table(player_name, stat_type, num_recent_games, step)`:
empty when the fit is unavailable or when no matched game has a truthy
stat value; otherwise the rounded-threshold / rounded-probability rows of
`probTable` over `np.arange(0, max(values) + step, step)`. -/
noncomputable def getProbabilitiesTable (store : List Game) (name statType : String)
    (W : ℕ) (step : ℚ) : List (ℝ × ℝ) :=
  match getProbabilityDistribution store name statType W with
  | none => []
  | some M =>
    if ((matchedGames store name).map fun g =>
          getStat g ((statTypeMapping.lookup statType).join)).filter (fun v => decide (v ≠ 0)) = []
      then []
    else
      probTable M
        (qListMax (((matchedGames store name).map fun g =>
          getStat g ((statTypeMapping.lookup statType).join)).filter fun v => decide (v ≠ 0)))
        step

/-! ### Prop Scorer (`analyze_player_stats`, `calculate_prop_score`) -/

/-- The summary dict built by `analyze_player_stats` (an empty dict,
returned when no game passes the minutes filter, is `none`). -/
structure AnalysisResult where
  gamesPlayed : ℕ
  timesAboveLine : ℕ
  averageValue : ℚ
  averageMinutes : ℚ
  minutesStdev : ℝ
  averageDifference : ℚ
  lineScore : ℚ
  recentAverage : ℚ
  recentHitRate : ℚ
  recentValues : List ℚ
  probabilityOverLine : Option ℝ
  probabilityDistribution : Option (ℝ × ℝ × ℝ × ℝ × ℝ)

/-- The games kept by the season loop (`if not game.get('min'): continue`). -/
def seasonGames (series : List Game) : List Game :=
  series.filter fun g => minTruthy g.minQ

/-- The per-game stat values of the season loop. -/
def seasonValues (series : List Game) (key : Option String) : List ℚ :=
  (seasonGames series).map fun g => getStat g key

/-- The per-game minutes of the season loop. -/
def seasonMinutes (series : List Game) : List ℚ :=
  (seasonGames series).map minVal

/-- List `differences_when_above`: overage amounts where `value > line_score`. -/
def overages (values : List ℚ) (line : ℚ) : List ℚ :=
  (values.filter fun v => decide (line < v)).map fun v => v - line

/-- Slice `recent_games = player_stats[-10:]` — no minutes filter is applied. -/
def recentGames (series : List Game) : List Game :=
  series.drop (series.length - 10)

/-- The recent-loop stat values (every recent game contributes). -/
def recentValuesOf (series : List Game) (key : Option String) : List ℚ :=
  (recentGames series).map fun g => getStat g key

/-- The recent-loop hit count (`value > line_score`). -/
def recentHits (series : List Game) (key : Option String) (line : ℚ) : ℕ :=
  ((recentValuesOf series key).filter fun v => decide (line < v)).length

/-- Head game `player_stats[0]`'s concatenated player name (used for the
probability-distribution lookup inside `analyze_player_stats`). -/
def headPlayerName (series : List Game) : String :=
  match series with
  | [] => ""
  | g :: _ => g.playerName

/-- The record built by a successful `analyze_player_stats` run (its
`key` is the mapped stat key, `dist` the distribution looked up for the
head player's name). -/
noncomputable def analysisRecord (series : List Game) (key : Option String)
    (dist : Option ProbModel) (line : ℚ) : AnalysisResult :=
  { gamesPlayed := (seasonValues series key).length
    timesAboveLine := (overages (seasonValues series key) line).length
    averageValue := qmean (seasonValues series key)
    averageMinutes := if seasonMinutes series = [] then 0 else qmean (seasonMinutes series)
    minutesStdev :=
      if 1 < (seasonMinutes series).length then Real.sqrt (sampleVariance (seasonMinutes series))
      else 0
    averageDifference :=
      if overages (seasonValues series key) line = [] then 0
      else qmean (overages (seasonValues series key) line)
    lineScore := line
    recentAverage :=
      if recentValuesOf series key = [] then 0 else qmean (recentValuesOf series key)
    recentHitRate :=
      if (recentGames series).length = 0 then 0
      else (recentHits series key line : ℚ) / ((recentGames series).length : ℚ)
    recentValues := (recentValuesOf series key).drop ((recentValuesOf series key).length - 10)
    probabilityOverLine := dist.map fun M => probOverThreshold M (line : ℝ)
    probabilityDistribution := dist.map fun M =>
      (probOverThreshold M ((line : ℝ) - 5), probOverThreshold M ((line : ℝ) - 2),
       probOverThreshold M (line : ℝ), probOverThreshold M ((line : ℝ) + 2),
       probOverThreshold M ((line : ℝ) + 5)) }

/-- Analysis `analyze_player_stats(player_stats, prop_type, line_score)`. -/
noncomputable def analyzePlayerStats (store series : List Game) (propType : String)
    (line : ℚ) : Option AnalysisResult :=
  if seasonValues series ((statTypeMapping.lookup propType).join) = [] then none
  else
    some (analysisRecord series ((statTypeMapping.lookup propType).join)
      (getProbabilityDistribution store (headPlayerName series) propType 20) line)

/-! ### Prop Ranking Pipeline (`find_best_props`) -/

/-- A current prop line; `lineScore = none` models an entry whose
`float(line_score)` conversion raises (caught per item). -/
structure PropLine where
  playerName : String
  statType : String
  lineScore : Option ℚ

/-- An output item of `find_best_props`. -/
structure AnalyzedProp where
  prop : PropLine
  analysis : AnalysisResult
  score : ℝ

/-- Score `calculate_prop_score(analysis)`. -/
noncomputable def calculatePropScore (a : AnalysisResult) : ℝ :=
  ((a.timesAboveLine : ℝ) / (a.gamesPlayed : ℝ)) * (4 / 10)
    + ((a.averageDifference : ℝ) / 10) * (3 / 10)
    + 1 / (1 + a.minutesStdev) * (2 / 10)
    + min ((a.gamesPlayed : ℝ) / 20) 1 * (1 / 10)

/-- One iteration of the `find_best_props` loop: `none` exactly on the
skip / failure paths (too few matched games, unknown stat type, a raising
line-score conversion, or an empty analysis). -/
noncomputable def processProp (store : List Game) (minGames : ℕ) (p : PropLine) :
    Option AnalyzedProp :=
  let matched := matchedGames store p.playerName
  if matched.length < minGames then none
  else if (statTypeMapping.lookup p.statType).isNone then none
  else
    match p.lineScore with
    | none => none
    | some l =>
      (analyzePlayerStats store matched p.statType l).map fun a =>
        ⟨p, a, calculatePropScore a⟩

open Classical in
/-- The comparison of `sorted(..., key=lambda x: x['score'], reverse=True)`. -/
noncomputable def scoreDescLE (a b : AnalyzedProp) : Bool :=
  decide (b.score ≤ a.score)

/-- Pipeline `find_best_props(min_games)`: analyze every prop independently, keep
the successful ones, and stable-sort them by descending score. -/
noncomputable def findBestProps (store : List Game) (minGames : ℕ)
    (props : List PropLine) : List AnalyzedProp :=
  (props.filterMap (processProp store minGames)).mergeSort scoreDescLE

/-- Relation between two game records that may differ only in the stat
values of a game whose minutes entry is zero or missing (its identifying
fields and minutes agree; if the minutes entry is truthy the records agree
entirely). -/
def DNPStatsOnly (g g' : Game) : Prop :=
  g.firstname = g'.firstname ∧ g.lastname = g'.lastname ∧ g.minQ = g'.minQ
    ∧ (minTruthy g.minQ = true → g.stats = g'.stats)

/-- The fields of an analysis summary other than the recent-window
statistics, as one tuple (used to compare two analysis runs). -/
noncomputable def nonRecentFields (a : AnalysisResult) :
    ℕ × ℕ × ℚ × ℚ × ℝ × ℚ × ℚ × Option ℝ × Option (ℝ × ℝ × ℝ × ℝ × ℝ) :=
  (a.gamesPlayed, a.timesAboveLine, a.averageValue, a.averageMinutes,
   a.minutesStdev, a.averageDifference, a.lineScore,
   a.probabilityOverLine, a.probabilityDistribution)

/-! ### Concrete instances used in the counterexamples and witnesses -/

/-- A matched game with no parsable minutes entry. -/
def gNoMin : Game := ⟨"A", "B", none, fun _ => 0⟩

/-- A matched game with 30 minutes and all stats 0. -/
def gPlay0 : Game := ⟨"A", "B", some 30, fun _ => 0⟩

/-- A matched game with 30 minutes and 10 points. -/
def gPlay10 : Game := ⟨"A", "B", some 30, fun k => if k = "points" then 10 else 0⟩

/-- Ten matched games of which only two have positive minutes. -/
def storeC2 : List Game := List.replicate 8 gNoMin ++ [gPlay0, gPlay10]

/-- A played game: 30 minutes, every stat 10. -/
def gPlayed : Game := ⟨"A", "B", some 30, fun _ => 10⟩

/-- A zero-minute game whose stats are all 0. -/
def gBench0 : Game := ⟨"A", "B", some 0, fun _ => 0⟩

/-- The same zero-minute game with its stat values mutated to 100. -/
def gBench100 : Game := ⟨"A", "B", some 0, fun _ => 100⟩

/-- A two-game series ending in a zero-minute game. -/
def seriesBench0 : List Game := [gPlayed, gBench0]

/-- The same series with only the zero-minute game's stats changed. -/
def seriesBench100 : List Game := [gPlayed, gBench100]

/-- A played game for the Fantasy Score scenario. -/
def gFantasy : Game := ⟨"C", "D", some 30, fun _ => 7⟩

/-- Five matched games for the Fantasy Score scenario. -/
def storeC10 : List Game := List.replicate 5 gFantasy

/-- A Fantasy Score prop on that player. -/
def propFantasy : PropLine := ⟨"C D", "Fantasy Score", some 2⟩

/-- A prop whose player has no matching game at all. -/
def propNobody : PropLine := ⟨"Nobody Here", "Points", some 5⟩

/-- A valid-minutes series whose combined recency-times-minutes weights
cancel exactly: mean minutes is 11, games 1..19 sit exactly at three times
the mean (minutes weight 0), and the remaining rational-recency terms sum
to `-60/11 + 80 * (1/10) * (15/22) = 0`. -/
def minutesCancel : List ℚ := 153 :: (List.replicate 19 33 ++ List.replicate 80 4)

/-- A matched game with no parsable minutes entry (store filler). -/
def gC3fill : Game := ⟨"E", "F", none, fun _ => 0⟩

/-- A matched played game: 280 minutes units, 0 points. -/
def gC3small : Game := ⟨"E", "F", some 280, fun _ => 0⟩

/-- A matched game whose minutes (2521) sit just above three times the
average minutes (840) of the valid games, with 50 points. -/
def gC3mid : Game := ⟨"E", "F", some 2521, fun k => if k = "points" then 50 else 0⟩

/-- A matched game whose minutes (2519) sit just below three times the
average minutes, with 100 points. -/
def gC3hi : Game := ⟨"E", "F", some 2519, fun k => if k = "points" then 100 else 0⟩

/-- Ten matched games: eight with positive minutes — one of them above
three times the average minutes, so its combined weight is negative —
plus two unparsable-minutes fillers to reach the 10-game gate. -/
def storeC3R : List Game :=
  [gC3small, gC3small, gC3small, gC3small, gC3small, gC3small, gC3mid, gC3hi, gC3fill, gC3fill]

/-- The points values of the valid games of `storeC3R`, in store order. -/
def valsC3 : List ℚ := [0, 0, 0, 0, 0, 0, 50, 100]

/-- The minutes of the valid games of `storeC3R`, in store order. -/
def minsC3 : List ℚ := [280, 280, 280, 280, 280, 280, 2521, 2519]

/-- The estimator state fitted by `get_probability_distribution` on
`storeC3R`: the actual normalized recency-times-minutes weights and the
actual Silverman bandwidth of that data. -/
noncomputable def modelC3R : ProbModel :=
  ⟨castList valsC3, normalizedWeights 20 minsC3,
   silvermanBandwidth (castList valsC3) (normalizedWeights 20 minsC3),
   3 / 2 * listMax (castList valsC3)⟩

/-- A wellformed fitted model with nonnegative weights. -/
noncomputable def modelPos : ProbModel := ⟨[0, 1], [1 / 2, 1 / 2], 1, 3 / 2⟩

/-- A matched played game for the C8 scenario: 681 minutes units, 0 points. -/
def gC8small : Game := ⟨"G", "H", some 681, fun _ => 0⟩

/-- A matched game whose minutes (3054) sit just below three times the
average minutes (1020), with 100 points: its normalized weight is tiny. -/
def gC8hero : Game := ⟨"G", "H", some 3054, fun k => if k = "points" then 100 else 0⟩

/-- A matched game with no parsable minutes entry (store filler). -/
def gC8fill : Game := ⟨"G", "H", none, fun _ => 0⟩

/-- Ten matched games: seven with positive minutes plus three
unparsable-minutes fillers to reach the 10-game gate. -/
def storeC8R : List Game :=
  [gC8small, gC8small, gC8small, gC8small, gC8small, gC8small, gC8hero,
   gC8fill, gC8fill, gC8fill]

/-- The points values of the valid games of `storeC8R`, in store order. -/
def valsC8 : List ℚ := [0, 0, 0, 0, 0, 0, 100]

/-- The minutes of the valid games of `storeC8R`, in store order. -/
def minsC8 : List ℚ := [681, 681, 681, 681, 681, 681, 3054]

/-- The estimator state fitted by `get_probability_distribution` on
`storeC8R`: the actual normalized recency-times-minutes weights and the
actual Silverman bandwidth of that data. -/
noncomputable def modelC8R : ProbModel :=
  ⟨castList valsC8, normalizedWeights 20 minsC8,
   silvermanBandwidth (castList valsC8) (normalizedWeights 20 minsC8),
   3 / 2 * listMax (castList valsC8)⟩

/-! ## Lemmas about the Gaussian kernel -/

lemma gaussKernel_pos (t : ℝ) : 0 < gaussKernel t := Real.exp_pos _

lemma gaussKernel_neg (t : ℝ) : gaussKernel (-t) = gaussKernel t := by
  simp [gaussKernel]

lemma integrable_gaussKernel : MeasureTheory.Integrable gaussKernel :=
  show MeasureTheory.Integrable (fun t : ℝ => Real.exp (-(1 / 2 : ℝ) * t ^ 2))
      MeasureTheory.volume from
    integrable_exp_neg_mul_sq (by norm_num)

lemma integral_gaussKernel : (∫ t : ℝ, gaussKernel t) = Real.sqrt (2 * Real.pi) := by
  have h := integral_gaussian (1 / 2 : ℝ)
  rw [show Real.pi / (1 / 2 : ℝ) = 2 * Real.pi by ring] at h
  exact h

lemma sqrt_two_pi_pos : 0 < Real.sqrt (2 * Real.pi) :=
  Real.sqrt_pos.mpr (by positivity)

lemma two_le_sqrt_two_pi : (2 : ℝ) ≤ Real.sqrt (2 * Real.pi) := by
  have h4 : (4 : ℝ) ≤ 2 * Real.pi := by nlinarith [Real.pi_gt_three]
  calc (2 : ℝ) = Real.sqrt 4 := by
        rw [show (4 : ℝ) = 2 ^ 2 by norm_num, Real.sqrt_sq (by norm_num)]
    _ ≤ Real.sqrt (2 * Real.pi) := Real.sqrt_le_sqrt h4

lemma stdNormalCDF_mono : Monotone stdNormalCDF := by
  intro z₁ z₂ h
  have hsub : Set.Iic z₁ ≤ᵐ[MeasureTheory.volume] Set.Iic z₂ :=
    HasSubset.Subset.eventuallyLE (Set.Iic_subset_Iic.mpr h)
  have hmono := MeasureTheory.setIntegral_mono_set integrable_gaussKernel.integrableOn
    (Filter.Eventually.of_forall fun t => (gaussKernel_pos t).le) hsub
  unfold stdNormalCDF
  gcongr

lemma stdNormalCDF_nonneg (z : ℝ) : 0 ≤ stdNormalCDF z := by
  apply div_nonneg ?_ sqrt_two_pi_pos.le
  exact MeasureTheory.setIntegral_nonneg measurableSet_Iic fun t _ => (gaussKernel_pos t).le

lemma stdNormalCDF_le_one (z : ℝ) : stdNormalCDF z ≤ 1 := by
  rw [stdNormalCDF, div_le_one sqrt_two_pi_pos]
  calc (∫ t in Set.Iic z, gaussKernel t) ≤ ∫ t : ℝ, gaussKernel t :=
        MeasureTheory.setIntegral_le_integral integrable_gaussKernel
          (Filter.Eventually.of_forall fun t => (gaussKernel_pos t).le)
    _ = Real.sqrt (2 * Real.pi) := integral_gaussKernel

lemma integral_exp_neg_mul_Ioi {c a : ℝ} (hc : 0 < c) :
    (∫ x in Set.Ioi a, Real.exp (-(c * x))) = Real.exp (-(c * a)) / c := by
  have h := MeasureTheory.integral_comp_mul_left_Ioi (fun y => Real.exp (-y)) a hc
  rw [integral_exp_neg_Ioi] at h
  rw [h, smul_eq_mul, inv_mul_eq_div]

lemma exp_neg_sq_half_le {B : ℝ} (hB : 0 < B) : Real.exp (-(B ^ 2 / 2)) ≤ 16 / B ^ 4 := by
  have key : B ^ 4 / 16 ≤ Real.exp (B ^ 2 / 2) := by
    have h1 : B ^ 2 / 4 ≤ Real.exp (B ^ 2 / 4) := by
      have := Real.add_one_le_exp (B ^ 2 / 4)
      linarith
    calc B ^ 4 / 16 = (B ^ 2 / 4) ^ 2 := by ring
      _ ≤ Real.exp (B ^ 2 / 4) ^ 2 := by
          apply pow_le_pow_left (by positivity) h1
      _ = Real.exp (B ^ 2 / 2) := by
          rw [sq, ← Real.exp_add]
          congr 1
          ring
  have hq : 0 < B ^ 4 / 16 := by positivity
  calc Real.exp (-(B ^ 2 / 2)) = (Real.exp (B ^ 2 / 2))⁻¹ := Real.exp_neg _
    _ ≤ (B ^ 4 / 16)⁻¹ := inv_le_inv_of_le hq key
    _ = 16 / B ^ 4 := inv_div _ _

lemma gauss_tail_le {B z : ℝ} (hB : 0 < B) (hz : B ≤ z) :
    (∫ t in Set.Ioi z, gaussKernel t) ≤ 32 / B ^ 5 := by
  have hc : 0 < B / 2 := by linarith
  have h1 : (∫ t in Set.Ioi z, gaussKernel t) ≤ ∫ t in Set.Ioi z, Real.exp (-(B / 2 * t)) := by
    apply MeasureTheory.setIntegral_mono_on integrable_gaussKernel.integrableOn ?_
      measurableSet_Ioi ?_
    · have h := exp_neg_integrableOn_Ioi z hc
      have heq : (fun x : ℝ => Real.exp (-(B / 2) * x)) = fun x : ℝ => Real.exp (-(B / 2 * x)) := by
        funext x
        rw [neg_mul]
      rwa [heq] at h
    · intro t ht
      have ht' : z < t := ht
      apply Real.exp_le_exp.mpr
      nlinarith
  have h2 : (∫ t in Set.Ioi z, Real.exp (-(B / 2 * t))) = Real.exp (-(B / 2 * z)) / (B / 2) :=
    integral_exp_neg_mul_Ioi hc
  have h3 : Real.exp (-(B / 2 * z)) ≤ Real.exp (-(B ^ 2 / 2)) := by
    apply Real.exp_le_exp.mpr
    nlinarith
  have h4 := exp_neg_sq_half_le hB
  calc (∫ t in Set.Ioi z, gaussKernel t) ≤ Real.exp (-(B / 2 * z)) / (B / 2) := by
        rw [← h2]; exact h1
    _ ≤ (16 / B ^ 4) / (B / 2) := div_le_div_of_nonneg_right (h3.trans h4) hc.le
    _ = 32 / B ^ 5 := by
        field_simp
        ring

lemma one_sub_le_stdNormalCDF {B z : ℝ} (hB : 0 < B) (hz : B ≤ z) :
    1 - 16 / B ^ 5 ≤ stdNormalCDF z := by
  have htail := gauss_tail_le hB hz
  have hsplit : (∫ t in Set.Iic z, gaussKernel t) + (∫ t in Set.Ioi z, gaussKernel t)
      = Real.sqrt (2 * Real.pi) := by
    rw [intervalIntegral.integral_Iic_add_Ioi integrable_gaussKernel.integrableOn
      integrable_gaussKernel.integrableOn, integral_gaussKernel]
  have hIic : (∫ t in Set.Iic z, gaussKernel t)
      = Real.sqrt (2 * Real.pi) - ∫ t in Set.Ioi z, gaussKernel t := by linarith
  rw [stdNormalCDF, hIic, sub_div, div_self sqrt_two_pi_pos.ne']
  have htailnn : 0 ≤ ∫ t in Set.Ioi z, gaussKernel t :=
    MeasureTheory.setIntegral_nonneg measurableSet_Ioi fun t _ => (gaussKernel_pos t).le
  have h2 : (∫ t in Set.Ioi z, gaussKernel t) / Real.sqrt (2 * Real.pi) ≤ (32 / B ^ 5) / 2 := by
    apply div_le_div (by positivity) htail (by norm_num) two_le_sqrt_two_pi
  have h3 : (32 / B ^ 5 : ℝ) / 2 = 16 / B ^ 5 := by ring
  linarith

lemma stdNormalCDF_le_tail {B z : ℝ} (hB : 0 < B) (hz : z ≤ -B) :
    stdNormalCDF z ≤ 16 / B ^ 5 := by
  have hflip : (∫ t in Set.Iic z, gaussKernel t) = ∫ t in Set.Ioi (-z), gaussKernel t := by
    have h1 : (∫ t in Set.Iic z, gaussKernel t) = ∫ t in Set.Iic z, gaussKernel (-t) :=
      MeasureTheory.setIntegral_congr_fun measurableSet_Iic fun t _ => (gaussKernel_neg t).symm
    rw [h1, integral_comp_neg_Iic]
  have htail : (∫ t in Set.Ioi (-z), gaussKernel t) ≤ 32 / B ^ 5 :=
    gauss_tail_le hB (by linarith)
  rw [stdNormalCDF, hflip]
  have h2 : (∫ t in Set.Ioi (-z), gaussKernel t) / Real.sqrt (2 * Real.pi) ≤ (32 / B ^ 5) / 2 := by
    apply div_le_div (by positivity) htail (by norm_num) two_le_sqrt_two_pi
  have h3 : (32 / B ^ 5 : ℝ) / 2 = 16 / B ^ 5 := by ring
  linarith

lemma stdNormalCDF_zero : stdNormalCDF 0 = 1 / 2 := by
  have h0 : (∫ t in Set.Iic (0 : ℝ), gaussKernel t) = ∫ t in Set.Ioi (0 : ℝ), gaussKernel t := by
    have h1 : (∫ t in Set.Iic (0 : ℝ), gaussKernel t)
        = ∫ t in Set.Iic (0 : ℝ), gaussKernel (-t) :=
      MeasureTheory.setIntegral_congr_fun measurableSet_Iic fun t _ => (gaussKernel_neg t).symm
    rw [h1, integral_comp_neg_Iic]
    norm_num
  have hsplit : (∫ t in Set.Iic (0 : ℝ), gaussKernel t) + (∫ t in Set.Ioi (0 : ℝ), gaussKernel t)
      = Real.sqrt (2 * Real.pi) := by
    rw [intervalIntegral.integral_Iic_add_Ioi integrable_gaussKernel.integrableOn
      integrable_gaussKernel.integrableOn, integral_gaussKernel]
  have hval : (∫ t in Set.Iic (0 : ℝ), gaussKernel t) = Real.sqrt (2 * Real.pi) / 2 := by
    linarith
  rw [stdNormalCDF, hval]
  rw [div_div, div_eq_div_iff (by positivity) (by norm_num)]
  ring

/-! ## C4 -/

/-- C4: for every fitted model and every finite threshold — however far
outside the historical range — the exposed query `prob_over_threshold`
returns a value in `[0, 1]` (the final clamp guarantees this whatever the
integration step produced), it is the clamp of the attempted integration,
and the caught-failure branch returns exactly `0.0`. -/
theorem c4_prob_over_threshold_in_unit_interval (M : ProbModel) (x : ℝ) :
    0 ≤ probOverThreshold M x ∧ probOverThreshold M x ≤ 1
      ∧ probOverThreshold M x
          = probOverThresholdRun M x (Except.ok (integrateBox M x M.upperBound))
      ∧ probOverThresholdRun M x (Except.error ()) = 0 := by
  refine ⟨?_, ?_, rfl, rfl⟩
  · exact le_min (le_max_right _ _) zero_le_one
  · exact min_le_right _ _

/-! ## C6 -/

/-- C6: each engineered feature at game index `i` (prior expanding mean
and trailing 10-game mean, of minutes and of the target stat) is a
function of the strictly earlier entries alone: two series agreeing on
their first `i` entries produce identical feature vectors at `i`.  In
particular mutating game `i`'s value leaves the features at every index
`j ≤ i` unchanged, and the feature at `i` never incorporates game `i`'s
own value. -/
theorem c6_features_no_lookahead (mins mins' stats stats' : List ℚ) (i : ℕ)
    (hm : mins.take i = mins'.take i) (hs : stats.take i = stats'.take i) :
    featuresAt mins stats i = featuresAt mins' stats' i := by
  unfold featuresAt historicalAvg movingAvg10
  rw [hm, hs]

/-- Witness for C6 at a concrete input: the third entries differ (100 vs
5 minutes, 100 vs 9 rebounds) yet the features at index 2 coincide. -/
theorem c6_features_no_lookahead_witness :
    ([3, 4, 100] : List ℚ).take 2 = ([3, 4, 5] : List ℚ).take 2
      ∧ ([7, 8, 100] : List ℚ).take 2 = ([7, 8, 9] : List ℚ).take 2
      ∧ featuresAt [3, 4, 100] [7, 8, 100] 2 = featuresAt [3, 4, 5] [7, 8, 9] 2 :=
  ⟨rfl, rfl, c6_features_no_lookahead [3, 4, 100] [3, 4, 5] [7, 8, 100] [7, 8, 9] 2 rfl rfl⟩

/-! ## Weight-list evaluation helpers -/

lemma minutesWeight_self (m : ℚ) : minutesWeight m m = 1 := by
  unfold minutesWeight
  simp

lemma recencyWeight_zero_lt {W : ℕ} (h : 0 < W) : recencyWeight W 0 = 1 := by
  unfold recencyWeight
  rw [if_pos h]
  norm_num

lemma recencyWeight_floor {W i : ℕ} (h : W ≤ i) : recencyWeight W i = 1 / 10 := by
  unfold recencyWeight
  rw [if_neg (by omega)]

lemma combinedWeights_pair :
    combinedWeights 20 [30, 30] = [1, Real.exp (-(1 : ℝ) / 20)] := by
  have hq : qmean [30, 30] = 30 := by
    norm_num [qmean]
  unfold combinedWeights
  rw [hq]
  unfold combinedWeightsAux combinedWeightsAux combinedWeightsAux
  rw [minutesWeight_self, recencyWeight_zero_lt (by norm_num)]
  norm_num [recencyWeight]

/-- C1 (failing-input evaluation): for the two-valid-game series with
minutes `[30, 30]` the source assigns the chronologically *last* (most
recent) game the combined weight `exp(-1/20)`, strictly below the weight
`exp(-0/20) = 1` of the chronologically first (oldest) game — the most
recent game does not receive the largest recency weight, contradicting
the reverse-chronological weighting the claim describes. -/
theorem c1_recency_weight_backwards :
    (combinedWeights 20 [30, 30]).head? = some 1
      ∧ (combinedWeights 20 [30, 30]).getLast? = some (Real.exp (-(1 : ℝ) / 20))
      ∧ Real.exp (-(1 : ℝ) / 20) < 1 := by
  refine ⟨?_, ?_, ?_⟩
  · rw [combinedWeights_pair]
    rfl
  · rw [combinedWeights_pair]
    rfl
  · rw [show (1 : ℝ) = Real.exp 0 by rw [Real.exp_zero]]
    apply Real.exp_lt_exp.mpr
    rw [Real.exp_zero]
    norm_num

/-! ## C5 -/

lemma list_sum_div (l : List ℝ) (s : ℝ) : (l.map fun w => w / s).sum = l.sum / s := by
  induction l with
  | nil => simp
  | cons a t ih => simp [ih, add_div]

lemma combinedWeightsAux_cons (W : ℕ) (avg m : ℚ) (ms : List ℚ) (i : ℕ) :
    combinedWeightsAux W avg i (m :: ms)
      = (recencyWeight W i * (minutesWeight avg m : ℝ))
          :: combinedWeightsAux W avg (i + 1) ms := rfl

lemma combinedWeightsAux_sum_of_zero {avg m : ℚ} (hm : minutesWeight avg m = 0)
    (W : ℕ) : ∀ k i : ℕ, (combinedWeightsAux W avg i (List.replicate k m)).sum = 0 := by
  intro k
  induction k with
  | zero =>
    intro i
    simp [combinedWeightsAux]
  | succ n ih =>
    intro i
    rw [List.replicate_succ, combinedWeightsAux_cons, List.sum_cons, hm, ih (i + 1)]
    simp

lemma combinedWeightsAux_sum_floor (avg m : ℚ) (W : ℕ) :
    ∀ k i : ℕ, W ≤ i →
      (combinedWeightsAux W avg i (List.replicate k m)).sum
        = (k : ℝ) * (1 / 10 * (minutesWeight avg m : ℝ)) := by
  intro k
  induction k with
  | zero =>
    intro i _
    simp [combinedWeightsAux]
  | succ n ih =>
    intro i hi
    rw [List.replicate_succ, combinedWeightsAux_cons, List.sum_cons,
      recencyWeight_floor hi, ih (i + 1) (by omega)]
    push_cast
    ring

lemma combinedWeightsAux_sum_append (W : ℕ) (avg : ℚ) (l₁ l₂ : List ℚ) :
    ∀ i, (combinedWeightsAux W avg i (l₁ ++ l₂)).sum
      = (combinedWeightsAux W avg i l₁).sum
        + (combinedWeightsAux W avg (i + l₁.length) l₂).sum := by
  induction l₁ with
  | nil =>
    intro i
    simp [combinedWeightsAux]
  | cons m ms ih =>
    intro i
    rw [List.cons_append, combinedWeightsAux_cons, List.sum_cons, ih (i + 1),
      combinedWeightsAux_cons, List.sum_cons, List.length_cons,
      show i + (ms.length + 1) = i + 1 + ms.length by omega]
    ring

lemma qmean_minutesCancel : qmean minutesCancel = 11 := by
  unfold minutesCancel qmean
  rw [List.sum_cons, List.sum_append, List.sum_replicate, List.sum_replicate]
  simp [List.length_append, List.length_replicate]
  norm_num

lemma combinedWeights_minutesCancel_sum :
    (combinedWeights 20 minutesCancel).sum = 0 := by
  have h33 : minutesWeight 11 33 = 0 := by
    norm_num [minutesWeight]
  have h153 : minutesWeight 11 153 = -60 / 11 := by
    norm_num [minutesWeight]
  have h4 : minutesWeight 11 4 = 15 / 22 := by
    norm_num [minutesWeight]
  unfold combinedWeights
  rw [qmean_minutesCancel]
  show (combinedWeightsAux 20 11 0 (153 :: (List.replicate 19 33 ++ List.replicate 80 4))).sum = 0
  rw [combinedWeightsAux_cons, List.sum_cons]
  rw [combinedWeightsAux_sum_append 20 11 (List.replicate 19 33) (List.replicate 80 4) (0 + 1),
    List.length_replicate, combinedWeightsAux_sum_of_zero h33 20 19 1,
    combinedWeightsAux_sum_floor 11 4 20 80 (0 + 1 + 19) (by omega),
    recencyWeight_zero_lt (by norm_num), h153, h4]
  push_cast
  ring

/-- C5 (counterexample): a nonempty series, all of whose games carry
positive minutes, on which the combined recency-times-minutes weights
cancel to a zero sum: the normalization then divides by zero and the
resulting weights sum to 0, not 1. -/
theorem c5_counterexample_weights_sum_zero :
    minutesCancel ≠ [] ∧ (∀ m ∈ minutesCancel, 0 < m)
      ∧ (combinedWeights 20 minutesCancel).sum = 0
      ∧ (normalizedWeights 20 minutesCancel).sum = 0 := by
  refine ⟨by simp [minutesCancel], ?_, combinedWeights_minutesCancel_sum, ?_⟩
  · intro m hm
    unfold minutesCancel at hm
    simp only [List.mem_cons, List.mem_append, List.mem_replicate] at hm
    rcases hm with h | ⟨_, h⟩ | ⟨_, h⟩ <;> rw [h] <;> norm_num
  · unfold normalizedWeights
    rw [list_sum_div, combinedWeights_minutesCancel_sum, zero_div]

/-- C5 (amended): whenever the combined weights do not cancel to a zero
sum — in particular whenever they are all nonnegative and some game has
positive weight, e.g. when every game's minutes stay at or below three
times the average — the normalized weights sum to exactly 1. -/
theorem c5_normalized_weights_sum_one (W : ℕ) (mins : List ℚ)
    (h : (combinedWeights W mins).sum ≠ 0) :
    (normalizedWeights W mins).sum = 1 := by
  unfold normalizedWeights
  rw [list_sum_div, div_self h]

/-- Witness for C5 (amended) at a concrete series. -/
theorem c5_normalized_weights_sum_one_witness :
    (combinedWeights 20 [30, 30]).sum ≠ 0
      ∧ (normalizedWeights 20 [30, 30]).sum = 1 := by
  have hsum : (combinedWeights 20 [30, 30]).sum = 1 + Real.exp (-(1 : ℝ) / 20) := by
    rw [combinedWeights_pair]
    simp
  have hne : (combinedWeights 20 [30, 30]).sum ≠ 0 := by
    rw [hsum]
    have h := Real.exp_pos (-(1 : ℝ) / 20)
    intro hc
    linarith
  exact ⟨hne, c5_normalized_weights_sum_one 20 [30, 30] hne⟩

/-! ## C2 -/

lemma normalizedWeights_pair :
    normalizedWeights 20 [30, 30]
      = [1 / (1 + Real.exp (-(1 : ℝ) / 20)),
         Real.exp (-(1 : ℝ) / 20) / (1 + Real.exp (-(1 : ℝ) / 20))] := by
  unfold normalizedWeights
  rw [combinedWeights_pair]
  simp

/-- C2 (amended): the 10-game precondition counts *matched* games, with
zero-minute games included: fewer than 10 matched games, or no matched
game with positive minutes, yields the defined unavailable result `none`
(the embedding of the fit is total, so no error escapes either way). -/
theorem c2_insufficient_data_returns_none (store : List Game) (name statType : String)
    (W : ℕ)
    (h : (matchedGames store name).length < 10 ∨ validGames (matchedGames store name) = []) :
    getProbabilityDistribution store name statType W = none := by
  unfold getProbabilityDistribution
  rcases h with h | h
  · rw [if_pos h]
  · by_cases h10 : (matchedGames store name).length < 10
    · rw [if_pos h10]
    · rw [if_neg h10]
      cases hk : (statTypeMapping.lookup statType).join with
      | none => rfl
      | some key =>
        rw [Option.some_bind, h]
        simp

/-- Witness for C2 (amended): a single matched game yields `none`. -/
theorem c2_insufficient_data_returns_none_witness :
    ((matchedGames [gPlay10] "A B").length < 10
        ∨ validGames (matchedGames [gPlay10] "A B") = [])
      ∧ getProbabilityDistribution [gPlay10] "A B" "Points" 20 = none := by
  have h : (matchedGames [gPlay10] "A B").length < 10 ∨
      validGames (matchedGames [gPlay10] "A B") = [] := by
    left
    rw [show (matchedGames [gPlay10] "A B").length = 1 from rfl]
    omega
  exact ⟨h, c2_insufficient_data_returns_none [gPlay10] "A B" "Points" 20 h⟩

/-- C2 (counterexample): ten matched games of which only two have
positive minutes — fewer than 10 valid games — and the fit nevertheless
returns a distribution instead of the unavailable result. -/
theorem c2_counterexample_fits_with_two_valid_games :
    (validGames (matchedGames storeC2 "A B")).length = 2
      ∧ getProbabilityDistribution storeC2 "A B" "Points" 20 ≠ none := by
  constructor
  · rfl
  · unfold getProbabilityDistribution
    have hlen : ¬(matchedGames storeC2 "A B").length < 10 := by
      rw [show (matchedGames storeC2 "A B").length = 10 from rfl]
      omega
    rw [if_neg hlen, show (statTypeMapping.lookup "Points").join = some "points" from rfl,
      Option.some_bind,
      show ((validGames (matchedGames storeC2 "A B")).map fun g => g.stats "points")
        = [(0 : ℚ), 10] from rfl]
    rw [if_neg (by simp)]
    rw [show (validGames (matchedGames storeC2 "A B")).map minVal = [(30 : ℚ), 30] from rfl,
      normalizedWeights_pair]
    unfold castList
    rw [List.map_cons, List.map_cons, List.map_nil]
    unfold kdeFit
    rw [if_pos ?hvar]
    · simp
    case hvar =>
      unfold weightedVariance weightedMean
      have he := Real.exp_pos (-(1 : ℝ) / 20)
      set e := Real.exp (-(1 : ℝ) / 20) with he_def
      have hs : 0 < 1 + e := by linarith
      simp only [List.zip_cons_cons, List.zip_nil_right, List.map_cons, List.map_nil,
        List.sum_cons, List.sum_nil]
      push_cast
      have hb0 : 0 < e / (1 + e) := div_pos he hs
      have hb1 : e / (1 + e) < 1 := (div_lt_one hs).mpr (by linarith)
      nlinarith [hb0, hb1]

/-! ## C3 -/

/-- C3 (amended): the survival query is monotonically non-increasing in
the threshold for every fitted model all of whose weights are
nonnegative.  (A negative combined weight — which the weighting produces
whenever a game's minutes exceed three times the average — can break
this; see the counterexample.) -/
theorem c3_prob_over_monotone (M : ProbModel) (hw : ∀ w ∈ M.weights, 0 ≤ w)
    (hb : 0 < M.bandwidth) (x₁ x₂ : ℝ) (hx : x₁ ≤ x₂) :
    probOverThreshold M x₂ ≤ probOverThreshold M x₁ := by
  have hIB : integrateBox M x₂ M.upperBound ≤ integrateBox M x₁ M.upperBound := by
    unfold integrateBox
    apply List.sum_le_sum
    intro vw hvw
    rcases vw with ⟨v, w⟩
    have hw2 : w ∈ M.weights := (List.of_mem_zip hvw).2
    have h0 : 0 ≤ w := hw w hw2
    have hcdf : stdNormalCDF ((x₁ - v) / M.bandwidth) ≤ stdNormalCDF ((x₂ - v) / M.bandwidth) :=
      stdNormalCDF_mono (div_le_div_of_nonneg_right (by linarith) hb.le)
    simp only
    apply mul_le_mul_of_nonneg_left (by linarith) h0
  unfold probOverThreshold clamp01
  exact min_le_min (max_le_max hIB le_rfl) le_rfl

/-- Witness for C3 (amended) on a concrete nonnegative-weight model. -/
theorem c3_prob_over_monotone_witness :
    (∀ w ∈ modelPos.weights, 0 ≤ w) ∧ 0 < modelPos.bandwidth ∧ (0 : ℝ) ≤ 1
      ∧ probOverThreshold modelPos 1 ≤ probOverThreshold modelPos 0 := by
  have hw : ∀ w ∈ modelPos.weights, 0 ≤ w := by
    intro w hw
    simp only [modelPos, List.mem_cons, List.not_mem_nil, or_false] at hw
    rcases hw with h | h <;> rw [h] <;> norm_num
  have hb : 0 < modelPos.bandwidth := by
    simp [modelPos]
  exact ⟨hw, hb, by norm_num, c3_prob_over_monotone modelPos hw hb 0 1 (by norm_num)⟩

lemma cdf_hi25 {z : ℝ} (hz : 25 ≤ z) : 1 - 16 / 25 ^ 5 ≤ stdNormalCDF z :=
  one_sub_le_stdNormalCDF (by norm_num) hz

lemma cdf_lo25 {z : ℝ} (hz : z ≤ -25) : stdNormalCDF z ≤ 16 / 25 ^ 5 :=
  stdNormalCDF_le_tail (by norm_num) hz

lemma exp_neg_inv20_lb : (19 / 20 : ℝ) ≤ Real.exp (-(1 / 20)) := by
  have h := Real.add_one_le_exp (-(1 / 20) : ℝ)
  linarith

lemma exp_neg_inv20_ub : Real.exp (-(1 / 20)) ≤ 20 / 21 := by
  have h := Real.add_one_le_exp (1 / 20 : ℝ)
  calc Real.exp (-(1 / 20)) = (Real.exp (1 / 20))⁻¹ := Real.exp_neg _
    _ ≤ ((21 / 20 : ℝ))⁻¹ := inv_le_inv_of_le (by norm_num) (by linarith)
    _ = 20 / 21 := by norm_num

lemma recencyWeight_eq_pow {i : ℕ} (h : i < 20) :
    recencyWeight 20 i = Real.exp (-(1 / 20)) ^ i := by
  unfold recencyWeight
  rw [if_pos h, ← Real.exp_nat_mul]
  congr 1
  push_cast
  ring

/-- Two-sided rational bounds on the powers of the decay factor
`exp(-1/20)`, from `1 + t ≤ exp t` on both sides. -/
lemma expPow_bounds :
    (0.95 : ℝ) ≤ Real.exp (-(1 / 20)) ∧ Real.exp (-(1 / 20)) ≤ 0.952381
      ∧ (0.9025 : ℝ) ≤ Real.exp (-(1 / 20)) ^ 2 ∧ Real.exp (-(1 / 20)) ^ 2 ≤ 0.90703
      ∧ (0.857375 : ℝ) ≤ Real.exp (-(1 / 20)) ^ 3 ∧ Real.exp (-(1 / 20)) ^ 3 ≤ 0.863838
      ∧ (0.814506 : ℝ) ≤ Real.exp (-(1 / 20)) ^ 4 ∧ Real.exp (-(1 / 20)) ^ 4 ≤ 0.822703
      ∧ (0.773780 : ℝ) ≤ Real.exp (-(1 / 20)) ^ 5 ∧ Real.exp (-(1 / 20)) ^ 5 ≤ 0.783527
      ∧ (0.735091 : ℝ) ≤ Real.exp (-(1 / 20)) ^ 6 ∧ Real.exp (-(1 / 20)) ^ 6 ≤ 0.746216
      ∧ (0.698337 : ℝ) ≤ Real.exp (-(1 / 20)) ^ 7 ∧ Real.exp (-(1 / 20)) ^ 7 ≤ 0.710682 := by
  have hx0 : (0 : ℝ) < Real.exp (-(1 / 20)) := Real.exp_pos _
  have hx1 := exp_neg_inv20_lb
  have hx2 := exp_neg_inv20_ub
  have hl : ∀ k : ℕ, ((19 : ℝ) / 20) ^ k ≤ Real.exp (-(1 / 20)) ^ k :=
    fun k => pow_le_pow_left (by norm_num) hx1 k
  have hu : ∀ k : ℕ, Real.exp (-(1 / 20)) ^ k ≤ ((20 : ℝ) / 21) ^ k :=
    fun k => pow_le_pow_left hx0.le hx2 k
  refine ⟨by linarith, by linarith, ?_, ?_, ?_, ?_, ?_, ?_, ?_, ?_, ?_, ?_, ?_, ?_⟩
  · exact le_trans (show (0.9025 : ℝ) ≤ ((19 : ℝ) / 20) ^ 2 by norm_num) (hl 2)
  · exact le_trans (hu 2) (show ((20 : ℝ) / 21) ^ 2 ≤ 0.90703 by norm_num)
  · exact le_trans (show (0.857375 : ℝ) ≤ ((19 : ℝ) / 20) ^ 3 by norm_num) (hl 3)
  · exact le_trans (hu 3) (show ((20 : ℝ) / 21) ^ 3 ≤ 0.863838 by norm_num)
  · exact le_trans (show (0.814506 : ℝ) ≤ ((19 : ℝ) / 20) ^ 4 by norm_num) (hl 4)
  · exact le_trans (hu 4) (show ((20 : ℝ) / 21) ^ 4 ≤ 0.822703 by norm_num)
  · exact le_trans (show (0.773780 : ℝ) ≤ ((19 : ℝ) / 20) ^ 5 by norm_num) (hl 5)
  · exact le_trans (hu 5) (show ((20 : ℝ) / 21) ^ 5 ≤ 0.783527 by norm_num)
  · exact le_trans (show (0.735091 : ℝ) ≤ ((19 : ℝ) / 20) ^ 6 by norm_num) (hl 6)
  · exact le_trans (hu 6) (show ((20 : ℝ) / 21) ^ 6 ≤ 0.746216 by norm_num)
  · exact le_trans (show (0.698337 : ℝ) ≤ ((19 : ℝ) / 20) ^ 7 by norm_num) (hl 7)
  · exact le_trans (hu 7) (show ((20 : ℝ) / 21) ^ 7 ≤ 0.710682 by norm_num)

lemma qmean_minsC3 : qmean minsC3 = 840 := by
  norm_num [qmean, minsC3]

lemma combinedWeights_minsC3 :
    combinedWeights 20 minsC3
      = [Real.exp (-(1 / 20)) ^ 0 * (2 / 3), Real.exp (-(1 / 20)) ^ 1 * (2 / 3),
         Real.exp (-(1 / 20)) ^ 2 * (2 / 3), Real.exp (-(1 / 20)) ^ 3 * (2 / 3),
         Real.exp (-(1 / 20)) ^ 4 * (2 / 3), Real.exp (-(1 / 20)) ^ 5 * (2 / 3),
         Real.exp (-(1 / 20)) ^ 6 * (-(1 / 1680)), Real.exp (-(1 / 20)) ^ 7 * (1 / 1680)] := by
  have h280 : ((minutesWeight 840 280 : ℚ) : ℝ) = 2 / 3 := by
    norm_num [minutesWeight]
  have h2521 : ((minutesWeight 840 2521 : ℚ) : ℝ) = -(1 / 1680) := by
    norm_num [minutesWeight]
  have h2519 : ((minutesWeight 840 2519 : ℚ) : ℝ) = 1 / 1680 := by
    norm_num [minutesWeight]
  unfold combinedWeights
  rw [qmean_minsC3]
  unfold minsC3
  rw [combinedWeightsAux_cons, combinedWeightsAux_cons, combinedWeightsAux_cons,
    combinedWeightsAux_cons, combinedWeightsAux_cons, combinedWeightsAux_cons,
    combinedWeightsAux_cons, combinedWeightsAux_cons,
    show combinedWeightsAux 20 840 (0 + 1 + 1 + 1 + 1 + 1 + 1 + 1 + 1) [] = [] from rfl]
  simp only [h280, h2521, h2519]
  rw [recencyWeight_eq_pow (by omega), recencyWeight_eq_pow (by omega),
    recencyWeight_eq_pow (by omega), recencyWeight_eq_pow (by omega),
    recencyWeight_eq_pow (by omega), recencyWeight_eq_pow (by omega),
    recencyWeight_eq_pow (by omega), recencyWeight_eq_pow (by omega)]

lemma sum_combinedWeights_minsC3 :
    (combinedWeights 20 minsC3).sum
      = 2 / 3 * (1 + Real.exp (-(1 / 20)) + Real.exp (-(1 / 20)) ^ 2 + Real.exp (-(1 / 20)) ^ 3
            + Real.exp (-(1 / 20)) ^ 4 + Real.exp (-(1 / 20)) ^ 5)
        + 1 / 1680 * (Real.exp (-(1 / 20)) ^ 7 - Real.exp (-(1 / 20)) ^ 6) := by
  rw [combinedWeights_minsC3]
  simp only [List.sum_cons, List.sum_nil]
  ring

lemma sum_minsC3_bounds :
    (3.532 : ℝ) ≤ (combinedWeights 20 minsC3).sum
      ∧ (combinedWeights 20 minsC3).sum ≤ 3.553 := by
  obtain ⟨e1l, e1u, e2l, e2u, e3l, e3u, e4l, e4u, e5l, e5u, e6l, e6u, e7l, e7u⟩ := expPow_bounds
  rw [sum_combinedWeights_minsC3]
  constructor <;> nlinarith

lemma normalizedWeights_minsC3 :
    normalizedWeights 20 minsC3
      = [2 / 3 / (combinedWeights 20 minsC3).sum,
         Real.exp (-(1 / 20)) * (2 / 3) / (combinedWeights 20 minsC3).sum,
         Real.exp (-(1 / 20)) ^ 2 * (2 / 3) / (combinedWeights 20 minsC3).sum,
         Real.exp (-(1 / 20)) ^ 3 * (2 / 3) / (combinedWeights 20 minsC3).sum,
         Real.exp (-(1 / 20)) ^ 4 * (2 / 3) / (combinedWeights 20 minsC3).sum,
         Real.exp (-(1 / 20)) ^ 5 * (2 / 3) / (combinedWeights 20 minsC3).sum,
         Real.exp (-(1 / 20)) ^ 6 * (-(1 / 1680)) / (combinedWeights 20 minsC3).sum,
         Real.exp (-(1 / 20)) ^ 7 * (1 / 1680) / (combinedWeights 20 minsC3).sum] := by
  unfold normalizedWeights
  rw [combinedWeights_minsC3]
  norm_num

lemma varC3_bounds :
    0 < weightedVariance (castList valsC3) (normalizedWeights 20 minsC3)
      ∧ weightedVariance (castList valsC3) (normalizedWeights 20 minsC3) ≤ 1 := by
  obtain ⟨hsl, hsu⟩ := sum_minsC3_bounds
  obtain ⟨e1l, e1u, e2l, e2u, e3l, e3u, e4l, e4u, e5l, e5u, e6l, e6u, e7l, e7u⟩ := expPow_bounds
  unfold weightedVariance weightedMean
  rw [normalizedWeights_minsC3]
  unfold castList valsC3
  simp only [List.map_cons, List.map_nil, List.zip_cons_cons, List.zip_nil_left,
    List.zip_nil_right, List.sum_cons, List.sum_nil]
  push_cast
  set s := (combinedWeights 20 minsC3).sum with hsdef
  set x := Real.exp (-(1 / 20)) with hxdef
  clear hsdef hxdef
  clear e1l e1u e2l e2u e3l e3u e4l e4u e5l e5u
  have hspos : (0 : ℝ) < s := by linarith
  have hq6l : (0.2068 : ℝ) ≤ x ^ 6 / s := by
    rw [le_div_iff hspos]
    linarith
  have hq6u : x ^ 6 / s ≤ 0.21128 := by
    rw [div_le_iff hspos]
    linarith
  have hq7l : (0.19654 : ℝ) ≤ x ^ 7 / s := by
    rw [le_div_iff hspos]
    linarith
  have hq7u : x ^ 7 / s ≤ 0.20122 := by
    rw [div_le_iff hspos]
    linarith
  clear e6l e6u e7l e7u hsl hsu hspos
  have hμl : (0 : ℝ) ≤ -(50 / 1680) * (x ^ 6 / s) + (100 / 1680) * (x ^ 7 / s) := by
    linarith
  have hμu : -(50 / 1680) * (x ^ 6 / s) + (100 / 1680) * (x ^ 7 / s) ≤ 0.0059 := by
    linarith
  have hμsq : (-(50 / 1680) * (x ^ 6 / s) + (100 / 1680) * (x ^ 7 / s)) ^ 2 ≤ 0.00004 := by
    nlinarith [hμl, hμu]
  have hμsq0 : (0 : ℝ) ≤ (-(50 / 1680) * (x ^ 6 / s) + (100 / 1680) * (x ^ 7 / s)) ^ 2 :=
    sq_nonneg _
  norm_num
  rw [show (-(x ^ 6 * (1 / 1680)) / s * 50 + x ^ 7 * (1 / 1680) / s * 100)
      = -(50 / 1680) * (x ^ 6 / s) + 100 / 1680 * (x ^ 7 / s) from by ring]
  rw [show (-(x ^ 6 * (1 / 1680)) / s * 2500 + x ^ 7 * (1 / 1680) / s * 10000)
      = -(2500 / 1680) * (x ^ 6 / s) + 10000 / 1680 * (x ^ 7 / s) from by ring]
  constructor
  · linarith [hq6l, hq6u, hq7l, hq7u, hμsq, hμsq0]
  · linarith [hq6l, hq6u, hq7l, hq7u, hμsq, hμsq0]

lemma sqsum_minsC3_bounds :
    0 < ((normalizedWeights 20 minsC3).map fun w => w ^ 2).sum
      ∧ ((normalizedWeights 20 minsC3).map fun w => w ^ 2).sum ≤ 3 / 4 := by
  obtain ⟨hsl, hsu⟩ := sum_minsC3_bounds
  have hx0 : (0 : ℝ) < Real.exp (-(1 / 20)) := Real.exp_pos _
  have hx1 : Real.exp (-(1 / 20)) ≤ 1 := by
    have h := exp_neg_inv20_ub
    linarith
  rw [normalizedWeights_minsC3]
  simp only [List.map_cons, List.map_nil, List.sum_cons, List.sum_nil]
  set s := (combinedWeights 20 minsC3).sum with hsdef
  set x := Real.exp (-(1 / 20)) with hxdef
  have hspos : (0 : ℝ) < s := by linarith
  have hs2l : (12.475 : ℝ) ≤ s ^ 2 := by nlinarith
  have hs2u : s ^ 2 ≤ 12.624 := by nlinarith
  have hupos : (0 : ℝ) < 1 / s ^ 2 := by positivity
  have huu : 1 / s ^ 2 ≤ 0.0802 := by
    rw [div_le_iff (by positivity)]
    nlinarith
  have hpow_nn : ∀ k : ℕ, (0 : ℝ) ≤ x ^ k := fun k => pow_nonneg hx0.le k
  have hpow_le : ∀ k : ℕ, x ^ k ≤ 1 := fun k => pow_le_one₀ hx0.le hx1
  rw [show ((2 / 3 / s) ^ 2 + ((x * (2 / 3) / s) ^ 2 + ((x ^ 2 * (2 / 3) / s) ^ 2
      + ((x ^ 3 * (2 / 3) / s) ^ 2 + ((x ^ 4 * (2 / 3) / s) ^ 2 + ((x ^ 5 * (2 / 3) / s) ^ 2
      + ((x ^ 6 * (-(1 / 1680)) / s) ^ 2 + ((x ^ 7 * (1 / 1680) / s) ^ 2 + 0))))))))
      = 4 / 9 * (1 / s ^ 2) * (1 + x ^ 2 + x ^ 4 + x ^ 6 + x ^ 8 + x ^ 10)
        + 1 / 2822400 * (1 / s ^ 2) * (x ^ 12 + x ^ 14) from by
    field_simp
    ring]
  have hP1 : (1 : ℝ) ≤ 1 + x ^ 2 + x ^ 4 + x ^ 6 + x ^ 8 + x ^ 10 := by
    have h2 := hpow_nn 2
    have h4 := hpow_nn 4
    have h6 := hpow_nn 6
    have h8 := hpow_nn 8
    have h10 := hpow_nn 10
    linarith
  have hP6 : (1 + x ^ 2 + x ^ 4 + x ^ 6 + x ^ 8 + x ^ 10 : ℝ) ≤ 6 := by
    have h2 := hpow_le 2
    have h4 := hpow_le 4
    have h6 := hpow_le 6
    have h8 := hpow_le 8
    have h10 := hpow_le 10
    linarith
  have hQ0 : (0 : ℝ) ≤ x ^ 12 + x ^ 14 := by
    have h12 := hpow_nn 12
    have h14 := hpow_nn 14
    linarith
  have hQ2 : (x ^ 12 + x ^ 14 : ℝ) ≤ 2 := by
    have h12 := hpow_le 12
    have h14 := hpow_le 14
    linarith
  constructor
  · have hp1 : (0 : ℝ) < (1 / s ^ 2) * (1 + x ^ 2 + x ^ 4 + x ^ 6 + x ^ 8 + x ^ 10) :=
      mul_pos hupos (lt_of_lt_of_le one_pos hP1)
    have hp2 : (0 : ℝ) ≤ (1 / s ^ 2) * (x ^ 12 + x ^ 14) := mul_nonneg hupos.le hQ0
    linarith
  · have hp1 : (1 / s ^ 2) * (1 + x ^ 2 + x ^ 4 + x ^ 6 + x ^ 8 + x ^ 10) ≤ 0.0802 * 6 :=
      mul_le_mul huu hP6 (by linarith) (by norm_num)
    have hp2 : (1 / s ^ 2) * (x ^ 12 + x ^ 14) ≤ 0.0802 * 2 :=
      mul_le_mul huu hQ2 hQ0 (by norm_num)
    have hp3 : (0 : ℝ) ≤ (1 / s ^ 2) * (x ^ 12 + x ^ 14) := mul_nonneg hupos.le hQ0
    linarith

lemma bwC3_bounds : 0 < modelC3R.bandwidth ∧ modelC3R.bandwidth ≤ 1 := by
  obtain ⟨hv0, hv1⟩ := varC3_bounds
  obtain ⟨hq0, hq34⟩ := sqsum_minsC3_bounds
  have hb : modelC3R.bandwidth
      = silvermanBandwidth (castList valsC3) (normalizedWeights 20 minsC3) := rfl
  rw [hb]
  unfold silvermanBandwidth
  have h43 : (4 / 3 : ℝ) ≤ (((normalizedWeights 20 minsC3).map fun w => w ^ 2).sum)⁻¹ := by
    have h := inv_le_inv_of_le hq0 hq34
    norm_num at h
    exact h
  have hu1 : (1 : ℝ) ≤ (((normalizedWeights 20 minsC3).map fun w => w ^ 2).sum)⁻¹ * (3 / 4) :=
    calc (1 : ℝ) = 4 / 3 * (3 / 4) := by norm_num
      _ ≤ (((normalizedWeights 20 minsC3).map fun w => w ^ 2).sum)⁻¹ * (3 / 4) :=
          mul_le_mul_of_nonneg_right h43 (by norm_num)
  have hu0 : (0 : ℝ) < (((normalizedWeights 20 minsC3).map fun w => w ^ 2).sum)⁻¹ * (3 / 4) := by
    linarith
  constructor
  · exact mul_pos (Real.rpow_pos_of_pos hu0 _) (Real.sqrt_pos.mpr hv0)
  · calc ((((normalizedWeights 20 minsC3).map fun w => w ^ 2).sum)⁻¹ * (3 / 4)) ^ (-(1 / 5) : ℝ)
          * Real.sqrt (weightedVariance (castList valsC3) (normalizedWeights 20 minsC3))
        ≤ 1 * 1 :=
          mul_le_mul (Real.rpow_le_one_of_one_le_of_nonpos hu1 (by norm_num))
            ((Real.sqrt_le_left (by norm_num)).mpr (by simpa using hv1))
            (Real.sqrt_nonneg _) zero_le_one
      _ = 1 := mul_one 1

lemma mul_interval {a b la ua lb ub : ℝ} (h1 : la ≤ a) (h2 : a ≤ ua) (h3 : lb ≤ b)
    (h4 : b ≤ ub) (hla : 0 ≤ la) (hlb : 0 ≤ lb) : la * lb ≤ a * b ∧ a * b ≤ ua * ub :=
  ⟨mul_le_mul h1 h3 hlb (le_trans hla h1),
   mul_le_mul h2 h4 (le_trans hlb h3) (le_trans (le_trans hla h1) h2)⟩

lemma mul_symm_interval {u d U T : ℝ} (hu0 : 0 ≤ u) (huU : u ≤ U) (hd1 : -T ≤ d)
    (hd2 : d ≤ T) : -(U * T) ≤ u * d ∧ u * d ≤ U * T := by
  have hT : (0 : ℝ) ≤ T := by linarith
  constructor
  · nlinarith [mul_nonneg hu0 (show (0 : ℝ) ≤ d + T by linarith)]
  · nlinarith [mul_nonneg hu0 (show (0 : ℝ) ≤ T - d by linarith)]

lemma getProb_storeC3R :
    getProbabilityDistribution storeC3R "E F" "Points" 20 = some modelC3R := by
  unfold getProbabilityDistribution
  rw [if_neg (by rw [show (matchedGames storeC3R "E F").length = 10 from rfl]; omega),
    show (statTypeMapping.lookup "Points").join = some "points" from rfl,
    Option.some_bind,
    show ((validGames (matchedGames storeC3R "E F")).map fun g => g.stats "points")
      = valsC3 from rfl]
  rw [if_neg (by simp [valsC3]),
    show (validGames (matchedGames storeC3R "E F")).map minVal = minsC3 from rfl]
  unfold kdeFit
  rw [if_pos varC3_bounds.1]
  rfl

lemma upperBound_modelC3R : modelC3R.upperBound = 150 := by
  show 3 / 2 * listMax (castList valsC3) = 150
  unfold listMax castList valsC3
  push_cast
  norm_num [List.foldr, max_def]

set_option maxHeartbeats 1000000 in
lemma probOver_C3R_lt : probOverThreshold modelC3R 25 < probOverThreshold modelC3R 75 := by
  obtain ⟨hb0, hb1⟩ := bwC3_bounds
  obtain ⟨hsl, hsu⟩ := sum_minsC3_bounds
  obtain ⟨e1l, e1u, e2l, e2u, e3l, e3u, e4l, e4u, e5l, e5u, e6l, e6u, e7l, e7u⟩ := expPow_bounds
  have hvals : modelC3R.values = castList valsC3 := rfl
  have hwts : modelC3R.weights = normalizedWeights 20 minsC3 := rfl
  have h25 : integrateBox modelC3R 25 150
      = (2 / 3 * (1 + Real.exp (-(1 / 20)) + Real.exp (-(1 / 20)) ^ 2 + Real.exp (-(1 / 20)) ^ 3
            + Real.exp (-(1 / 20)) ^ 4 + Real.exp (-(1 / 20)) ^ 5)
          * (stdNormalCDF (150 / modelC3R.bandwidth) - stdNormalCDF (25 / modelC3R.bandwidth))
        - 1 / 1680 * Real.exp (-(1 / 20)) ^ 6
          * (stdNormalCDF (100 / modelC3R.bandwidth) - stdNormalCDF (-25 / modelC3R.bandwidth))
        + 1 / 1680 * Real.exp (-(1 / 20)) ^ 7
          * (stdNormalCDF (50 / modelC3R.bandwidth) - stdNormalCDF (-75 / modelC3R.bandwidth)))
        / (combinedWeights 20 minsC3).sum := by
    unfold integrateBox
    rw [hvals, hwts, normalizedWeights_minsC3]
    generalize modelC3R.bandwidth = bw
    unfold castList valsC3
    simp only [List.map_cons, List.map_nil, List.zip_cons_cons, List.zip_nil_left,
      List.zip_nil_right, List.sum_cons, List.sum_nil]
    push_cast
    norm_num
    ring
  have h75 : integrateBox modelC3R 75 150
      = (2 / 3 * (1 + Real.exp (-(1 / 20)) + Real.exp (-(1 / 20)) ^ 2 + Real.exp (-(1 / 20)) ^ 3
            + Real.exp (-(1 / 20)) ^ 4 + Real.exp (-(1 / 20)) ^ 5)
          * (stdNormalCDF (150 / modelC3R.bandwidth) - stdNormalCDF (75 / modelC3R.bandwidth))
        - 1 / 1680 * Real.exp (-(1 / 20)) ^ 6
          * (stdNormalCDF (100 / modelC3R.bandwidth) - stdNormalCDF (25 / modelC3R.bandwidth))
        + 1 / 1680 * Real.exp (-(1 / 20)) ^ 7
          * (stdNormalCDF (50 / modelC3R.bandwidth) - stdNormalCDF (-25 / modelC3R.bandwidth)))
        / (combinedWeights 20 minsC3).sum := by
    unfold integrateBox
    rw [hvals, hwts, normalizedWeights_minsC3]
    generalize modelC3R.bandwidth = bw
    unfold castList valsC3
    simp only [List.map_cons, List.map_nil, List.zip_cons_cons, List.zip_nil_left,
      List.zip_nil_right, List.sum_cons, List.sum_nil]
    push_cast
    norm_num
    ring
  unfold probOverThreshold clamp01
  rw [upperBound_modelC3R, h25, h75]
  set x := Real.exp (-(1 / 20)) with hxdef
  set s := (combinedWeights 20 minsC3).sum with hsdef
  set A := stdNormalCDF (150 / modelC3R.bandwidth) with hAdef
  set B := stdNormalCDF (100 / modelC3R.bandwidth) with hBdef
  set C := stdNormalCDF (50 / modelC3R.bandwidth) with hCdef
  set P75 := stdNormalCDF (75 / modelC3R.bandwidth) with hP75def
  set P25 := stdNormalCDF (25 / modelC3R.bandwidth) with hP25def
  set Q := stdNormalCDF (-25 / modelC3R.bandwidth) with hQdef
  set R := stdNormalCDF (-75 / modelC3R.bandwidth) with hRdef
  have hspos : (0 : ℝ) < s := by linarith
  have harg : ∀ a : ℝ, 25 ≤ a → 25 ≤ a / modelC3R.bandwidth := by
    intro a ha
    rw [le_div_iff hb0]
    nlinarith
  have hargneg : ∀ a : ℝ, a ≤ -25 → a / modelC3R.bandwidth ≤ -25 := by
    intro a ha
    rw [div_le_iff hb0]
    nlinarith
  have hA1 : 1 - 16 / 25 ^ 5 ≤ A := cdf_hi25 (harg 150 (by norm_num))
  have hA2 : A ≤ 1 := stdNormalCDF_le_one _
  have hB1 : 1 - 16 / 25 ^ 5 ≤ B := cdf_hi25 (harg 100 (by norm_num))
  have hB2 : B ≤ 1 := stdNormalCDF_le_one _
  have hC1 : 1 - 16 / 25 ^ 5 ≤ C := cdf_hi25 (harg 50 (by norm_num))
  have hC2 : C ≤ 1 := stdNormalCDF_le_one _
  have hP751 : 1 - 16 / 25 ^ 5 ≤ P75 := cdf_hi25 (harg 75 (by norm_num))
  have hP752 : P75 ≤ 1 := stdNormalCDF_le_one _
  have hP251 : 1 - 16 / 25 ^ 5 ≤ P25 := cdf_hi25 (harg 25 (by norm_num))
  have hP252 : P25 ≤ 1 := stdNormalCDF_le_one _
  have hQ1 : (0 : ℝ) ≤ Q := stdNormalCDF_nonneg _
  have hQ2 : Q ≤ 16 / 25 ^ 5 := cdf_lo25 (hargneg (-25) (by norm_num))
  have hR1 : (0 : ℝ) ≤ R := stdNormalCDF_nonneg _
  have hR2 : R ≤ 16 / 25 ^ 5 := cdf_lo25 (hargneg (-75) (by norm_num))
  clear_value x s A B C P75 P25 Q R
  clear hxdef hsdef hAdef hBdef hCdef hP75def hP25def hQdef hRdef hvals hwts harg hargneg
  have hu1l : (3.53 : ℝ) ≤ 2 / 3 * (1 + x + x ^ 2 + x ^ 3 + x ^ 4 + x ^ 5) := by linarith
  have hu1u : 2 / 3 * (1 + x + x ^ 2 + x ^ 3 + x ^ 4 + x ^ 5) ≤ 3.56 := by linarith
  have hu2l : (0.000437 : ℝ) ≤ 1 / 1680 * x ^ 6 := by linarith
  have hu2u : 1 / 1680 * x ^ 6 ≤ 0.000445 := by linarith
  have hu3l : (0.000415 : ℝ) ≤ 1 / 1680 * x ^ 7 := by linarith
  have hu3u : 1 / 1680 * x ^ 7 ≤ 0.000424 := by linarith
  have hp1a := mul_symm_interval (by linarith : (0 : ℝ) ≤ 2 / 3
      * (1 + x + x ^ 2 + x ^ 3 + x ^ 4 + x ^ 5)) hu1u
    (by linarith : -(16 / 25 ^ 5 : ℝ) ≤ A - P25) (by linarith : A - P25 ≤ 16 / 25 ^ 5)
  have hp1b := mul_symm_interval (by linarith : (0 : ℝ) ≤ 2 / 3
      * (1 + x + x ^ 2 + x ^ 3 + x ^ 4 + x ^ 5)) hu1u
    (by linarith : -(16 / 25 ^ 5 : ℝ) ≤ A - P75) (by linarith : A - P75 ≤ 16 / 25 ^ 5)
  have hp2a := mul_interval hu2l hu2u
    (by linarith : 1 - 2 * (16 / 25 ^ 5) ≤ B - Q) (by linarith : B - Q ≤ 1)
    (by norm_num) (by norm_num)
  have hp2b := mul_symm_interval (by linarith : (0 : ℝ) ≤ 1 / 1680 * x ^ 6) hu2u
    (by linarith : -(16 / 25 ^ 5 : ℝ) ≤ B - P25) (by linarith : B - P25 ≤ 16 / 25 ^ 5)
  have hp3a := mul_interval hu3l hu3u
    (by linarith : 1 - 2 * (16 / 25 ^ 5) ≤ C - R) (by linarith : C - R ≤ 1)
    (by norm_num) (by norm_num)
  have hp3b := mul_interval hu3l hu3u
    (by linarith : 1 - 2 * (16 / 25 ^ 5) ≤ C - Q) (by linarith : C - Q ≤ 1)
    (by norm_num) (by norm_num)
  have hN25 : 2 / 3 * (1 + x + x ^ 2 + x ^ 3 + x ^ 4 + x ^ 5) * (A - P25)
      - 1 / 1680 * x ^ 6 * (B - Q) + 1 / 1680 * x ^ 7 * (C - R) ≤ 0 := by
    have := hp1a.2
    have := hp2a.1
    have := hp3a.2
    linarith
  have hN75 : 0 < 2 / 3 * (1 + x + x ^ 2 + x ^ 3 + x ^ 4 + x ^ 5) * (A - P75)
      - 1 / 1680 * x ^ 6 * (B - P25) + 1 / 1680 * x ^ 7 * (C - Q) := by
    have := hp1b.1
    have := hp2b.2
    have := hp3b.1
    linarith
  have hN75s : 2 / 3 * (1 + x + x ^ 2 + x ^ 3 + x ^ 4 + x ^ 5) * (A - P75)
      - 1 / 1680 * x ^ 6 * (B - P25) + 1 / 1680 * x ^ 7 * (C - Q) ≤ s := by
    have := hp1b.2
    have := hp2b.1
    have := hp3b.2
    linarith
  have hd25 : (2 / 3 * (1 + x + x ^ 2 + x ^ 3 + x ^ 4 + x ^ 5) * (A - P25)
      - 1 / 1680 * x ^ 6 * (B - Q) + 1 / 1680 * x ^ 7 * (C - R)) / s ≤ 0 := by
    rw [div_le_iff hspos, zero_mul]
    exact hN25
  have hd75pos : 0 < (2 / 3 * (1 + x + x ^ 2 + x ^ 3 + x ^ 4 + x ^ 5) * (A - P75)
      - 1 / 1680 * x ^ 6 * (B - P25) + 1 / 1680 * x ^ 7 * (C - Q)) / s :=
    div_pos hN75 hspos
  have hd75le1 : (2 / 3 * (1 + x + x ^ 2 + x ^ 3 + x ^ 4 + x ^ 5) * (A - P75)
      - 1 / 1680 * x ^ 6 * (B - P25) + 1 / 1680 * x ^ 7 * (C - Q)) / s ≤ 1 := by
    rw [div_le_one hspos]
    exact hN75s
  rw [max_eq_right hd25, min_eq_left zero_le_one, max_eq_left hd75pos.le,
    min_eq_left hd75le1]
  exact hd75pos

/-- C3 (counterexample): a concrete reachable fit. On `storeC3R` (10
matched games, 8 valid, one with minutes above three times the average)
`get_probability_distribution` returns the fitted state `modelC3R` —
actual normalized weights, actual Silverman bandwidth — and its survival
query strictly increases from threshold 25 to threshold 75. -/
theorem c3_counterexample_fit_not_monotone :
    getProbabilityDistribution storeC3R "E F" "Points" 20 = some modelC3R
      ∧ (25 : ℝ) < 75
      ∧ probOverThreshold modelC3R 25 < probOverThreshold modelC3R 75 :=
  ⟨getProb_storeC3R, by norm_num, probOver_C3R_lt⟩

/-! ## C8 -/

/-- C8 (amended): every probability-table row holds the generating
threshold rounded to one decimal and the survival probability at that
same (unrounded) threshold rounded to three decimals — the recorded
probability reproduces the query only up to this rounding. -/
theorem c8_table_row_is_rounded_query (M : ProbModel) (maxVal step : ℚ) (k : ℕ)
    (hk : k < Nat.ceil ((maxVal + step) / step)) :
    (probTable M maxVal step).get? k
      = some (roundTo 1 ((k : ℝ) * (step : ℝ)),
          roundTo 3 (probOverThreshold M ((k : ℝ) * (step : ℝ)))) := by
  unfold probTable
  rw [List.get?_map, List.get?_range hk]
  rfl

/-- Witness for C8 (amended): the first row of a concrete table. -/
theorem c8_table_row_is_rounded_query_witness :
    0 < Nat.ceil (((1 : ℚ) + 1 / 2) / (1 / 2))
      ∧ (probTable modelPos 1 (1 / 2)).get? 0
        = some (roundTo 1 (((0 : ℕ) : ℝ) * ((1 / 2 : ℚ) : ℝ)),
            roundTo 3 (probOverThreshold modelPos (((0 : ℕ) : ℝ) * ((1 / 2 : ℚ) : ℝ)))) := by
  have hk : 0 < Nat.ceil (((1 : ℚ) + 1 / 2) / (1 / 2)) := by
    rw [show ((1 : ℚ) + 1 / 2) / (1 / 2) = (3 : ℚ) by norm_num]
    simp
  exact ⟨hk, c8_table_row_is_rounded_query modelPos 1 (1 / 2) 0 hk⟩

lemma qmean_minsC8 : qmean minsC8 = 1020 := by
  norm_num [qmean, minsC8]

lemma combinedWeights_minsC8 :
    combinedWeights 20 minsC8
      = [Real.exp (-(1 / 20)) ^ 0 * (567 / 680), Real.exp (-(1 / 20)) ^ 1 * (567 / 680),
         Real.exp (-(1 / 20)) ^ 2 * (567 / 680), Real.exp (-(1 / 20)) ^ 3 * (567 / 680),
         Real.exp (-(1 / 20)) ^ 4 * (567 / 680), Real.exp (-(1 / 20)) ^ 5 * (567 / 680),
         Real.exp (-(1 / 20)) ^ 6 * (1 / 340)] := by
  have h681 : ((minutesWeight 1020 681 : ℚ) : ℝ) = 567 / 680 := by
    norm_num [minutesWeight]
  have h3054 : ((minutesWeight 1020 3054 : ℚ) : ℝ) = 1 / 340 := by
    norm_num [minutesWeight]
  unfold combinedWeights
  rw [qmean_minsC8]
  unfold minsC8
  rw [combinedWeightsAux_cons, combinedWeightsAux_cons, combinedWeightsAux_cons,
    combinedWeightsAux_cons, combinedWeightsAux_cons, combinedWeightsAux_cons,
    combinedWeightsAux_cons,
    show combinedWeightsAux 20 1020 (0 + 1 + 1 + 1 + 1 + 1 + 1 + 1) [] = [] from rfl]
  simp only [h681, h3054]
  rw [recencyWeight_eq_pow (by omega), recencyWeight_eq_pow (by omega),
    recencyWeight_eq_pow (by omega), recencyWeight_eq_pow (by omega),
    recencyWeight_eq_pow (by omega), recencyWeight_eq_pow (by omega),
    recencyWeight_eq_pow (by omega)]

lemma sum_combinedWeights_minsC8 :
    (combinedWeights 20 minsC8).sum
      = 567 / 680 * (1 + Real.exp (-(1 / 20)) + Real.exp (-(1 / 20)) ^ 2
            + Real.exp (-(1 / 20)) ^ 3 + Real.exp (-(1 / 20)) ^ 4 + Real.exp (-(1 / 20)) ^ 5)
        + 1 / 340 * Real.exp (-(1 / 20)) ^ 6 := by
  rw [combinedWeights_minsC8]
  simp only [List.sum_cons, List.sum_nil]
  ring

lemma sum_minsC8_bounds :
    (4.4198 : ℝ) ≤ (combinedWeights 20 minsC8).sum
      ∧ (combinedWeights 20 minsC8).sum ≤ 4.4461 := by
  obtain ⟨e1l, e1u, e2l, e2u, e3l, e3u, e4l, e4u, e5l, e5u, e6l, e6u, e7l, e7u⟩ := expPow_bounds
  rw [sum_combinedWeights_minsC8]
  constructor <;> nlinarith

lemma normalizedWeights_minsC8 :
    normalizedWeights 20 minsC8
      = [567 / 680 / (combinedWeights 20 minsC8).sum,
         Real.exp (-(1 / 20)) * (567 / 680) / (combinedWeights 20 minsC8).sum,
         Real.exp (-(1 / 20)) ^ 2 * (567 / 680) / (combinedWeights 20 minsC8).sum,
         Real.exp (-(1 / 20)) ^ 3 * (567 / 680) / (combinedWeights 20 minsC8).sum,
         Real.exp (-(1 / 20)) ^ 4 * (567 / 680) / (combinedWeights 20 minsC8).sum,
         Real.exp (-(1 / 20)) ^ 5 * (567 / 680) / (combinedWeights 20 minsC8).sum,
         Real.exp (-(1 / 20)) ^ 6 * (1 / 340) / (combinedWeights 20 minsC8).sum] := by
  unfold normalizedWeights
  rw [combinedWeights_minsC8]
  norm_num

lemma varC8_bounds :
    0 < weightedVariance (castList valsC8) (normalizedWeights 20 minsC8)
      ∧ weightedVariance (castList valsC8) (normalizedWeights 20 minsC8) ≤ 25 / 4 := by
  obtain ⟨hsl, hsu⟩ := sum_minsC8_bounds
  obtain ⟨e1l, e1u, e2l, e2u, e3l, e3u, e4l, e4u, e5l, e5u, e6l, e6u, e7l, e7u⟩ := expPow_bounds
  unfold weightedVariance weightedMean
  rw [normalizedWeights_minsC8]
  unfold castList valsC8
  simp only [List.map_cons, List.map_nil, List.zip_cons_cons, List.zip_nil_left,
    List.zip_nil_right, List.sum_cons, List.sum_nil]
  push_cast
  set s := (combinedWeights 20 minsC8).sum with hsdef
  set x := Real.exp (-(1 / 20)) with hxdef
  clear hsdef hxdef
  clear e1l e1u e2l e2u e3l e3u e4l e4u e5l e5u e7l e7u
  have hspos : (0 : ℝ) < s := by linarith
  have hq6l : (0.16533 : ℝ) ≤ x ^ 6 / s := by
    rw [le_div_iff hspos]
    linarith
  have hq6u : x ^ 6 / s ≤ 0.16884 := by
    rw [div_le_iff hspos]
    linarith
  clear e6l e6u hsl hsu hspos
  have hμl : (0 : ℝ) ≤ 100 / 340 * (x ^ 6 / s) := by linarith
  have hμu : 100 / 340 * (x ^ 6 / s) ≤ 0.05 := by linarith
  have hμsq : (100 / 340 * (x ^ 6 / s)) ^ 2 ≤ 0.0025 := by
    nlinarith [hμl, hμu]
  have hμsq0 : (0 : ℝ) ≤ (100 / 340 * (x ^ 6 / s)) ^ 2 := sq_nonneg _
  norm_num
  rw [show (x ^ 6 * (1 / 340) / s * 100) = 100 / 340 * (x ^ 6 / s) from by ring]
  rw [show (x ^ 6 * (1 / 340) / s * 10000) = 10000 / 340 * (x ^ 6 / s) from by ring]
  constructor
  · linarith [hq6l, hq6u, hμsq, hμsq0]
  · linarith [hq6l, hq6u, hμsq, hμsq0]

lemma sqsum_minsC8_bounds :
    0 < ((normalizedWeights 20 minsC8).map fun w => w ^ 2).sum
      ∧ ((normalizedWeights 20 minsC8).map fun w => w ^ 2).sum ≤ 3 / 4 := by
  obtain ⟨hsl, hsu⟩ := sum_minsC8_bounds
  have hx0 : (0 : ℝ) < Real.exp (-(1 / 20)) := Real.exp_pos _
  have hx1 : Real.exp (-(1 / 20)) ≤ 1 := by
    have h := exp_neg_inv20_ub
    linarith
  rw [normalizedWeights_minsC8]
  simp only [List.map_cons, List.map_nil, List.sum_cons, List.sum_nil]
  set s := (combinedWeights 20 minsC8).sum with hsdef
  set x := Real.exp (-(1 / 20)) with hxdef
  have hspos : (0 : ℝ) < s := by linarith
  have hs2l : (19.5346 : ℝ) ≤ s ^ 2 := by nlinarith
  have hupos : (0 : ℝ) < 1 / s ^ 2 := by positivity
  have huu : 1 / s ^ 2 ≤ 0.0512 := by
    rw [div_le_iff (by positivity)]
    nlinarith
  have hpow_nn : ∀ k : ℕ, (0 : ℝ) ≤ x ^ k := fun k => pow_nonneg hx0.le k
  have hpow_le : ∀ k : ℕ, x ^ k ≤ 1 := fun k => pow_le_one₀ hx0.le hx1
  rw [show ((567 / 680 / s) ^ 2 + ((x * (567 / 680) / s) ^ 2 + ((x ^ 2 * (567 / 680) / s) ^ 2
      + ((x ^ 3 * (567 / 680) / s) ^ 2 + ((x ^ 4 * (567 / 680) / s) ^ 2
      + ((x ^ 5 * (567 / 680) / s) ^ 2 + ((x ^ 6 * (1 / 340) / s) ^ 2 + 0)))))))
      = 321489 / 462400 * (1 / s ^ 2) * (1 + x ^ 2 + x ^ 4 + x ^ 6 + x ^ 8 + x ^ 10)
        + 1 / 115600 * (1 / s ^ 2) * x ^ 12 from by
    field_simp
    ring]
  have hP1 : (1 : ℝ) ≤ 1 + x ^ 2 + x ^ 4 + x ^ 6 + x ^ 8 + x ^ 10 := by
    have h2 := hpow_nn 2
    have h4 := hpow_nn 4
    have h6 := hpow_nn 6
    have h8 := hpow_nn 8
    have h10 := hpow_nn 10
    linarith
  have hP6 : (1 + x ^ 2 + x ^ 4 + x ^ 6 + x ^ 8 + x ^ 10 : ℝ) ≤ 6 := by
    have h2 := hpow_le 2
    have h4 := hpow_le 4
    have h6 := hpow_le 6
    have h8 := hpow_le 8
    have h10 := hpow_le 10
    linarith
  have hQ0 : (0 : ℝ) ≤ x ^ 12 := hpow_nn 12
  have hQ2 : (x ^ 12 : ℝ) ≤ 1 := hpow_le 12
  constructor
  · have hp1 : (0 : ℝ) < (1 / s ^ 2) * (1 + x ^ 2 + x ^ 4 + x ^ 6 + x ^ 8 + x ^ 10) :=
      mul_pos hupos (lt_of_lt_of_le one_pos hP1)
    have hp2 : (0 : ℝ) ≤ (1 / s ^ 2) * x ^ 12 := mul_nonneg hupos.le hQ0
    linarith
  · have hp1 : (1 / s ^ 2) * (1 + x ^ 2 + x ^ 4 + x ^ 6 + x ^ 8 + x ^ 10) ≤ 0.0512 * 6 :=
      mul_le_mul huu hP6 (by linarith) (by norm_num)
    have hp2 : (1 / s ^ 2) * x ^ 12 ≤ 0.0512 * 1 :=
      mul_le_mul huu hQ2 hQ0 (by norm_num)
    have hp3 : (0 : ℝ) ≤ (1 / s ^ 2) * x ^ 12 := mul_nonneg hupos.le hQ0
    linarith

lemma bwC8_bounds : 0 < modelC8R.bandwidth ∧ modelC8R.bandwidth ≤ 5 / 2 := by
  obtain ⟨hv0, hv1⟩ := varC8_bounds
  obtain ⟨hq0, hq34⟩ := sqsum_minsC8_bounds
  have hb : modelC8R.bandwidth
      = silvermanBandwidth (castList valsC8) (normalizedWeights 20 minsC8) := rfl
  rw [hb]
  unfold silvermanBandwidth
  have h43 : (4 / 3 : ℝ) ≤ (((normalizedWeights 20 minsC8).map fun w => w ^ 2).sum)⁻¹ := by
    have h := inv_le_inv_of_le hq0 hq34
    norm_num at h
    exact h
  have hu1 : (1 : ℝ) ≤ (((normalizedWeights 20 minsC8).map fun w => w ^ 2).sum)⁻¹ * (3 / 4) :=
    calc (1 : ℝ) = 4 / 3 * (3 / 4) := by norm_num
      _ ≤ (((normalizedWeights 20 minsC8).map fun w => w ^ 2).sum)⁻¹ * (3 / 4) :=
          mul_le_mul_of_nonneg_right h43 (by norm_num)
  have hu0 : (0 : ℝ) < (((normalizedWeights 20 minsC8).map fun w => w ^ 2).sum)⁻¹ * (3 / 4) := by
    linarith
  constructor
  · exact mul_pos (Real.rpow_pos_of_pos hu0 _) (Real.sqrt_pos.mpr hv0)
  · calc ((((normalizedWeights 20 minsC8).map fun w => w ^ 2).sum)⁻¹ * (3 / 4)) ^ (-(1 / 5) : ℝ)
          * Real.sqrt (weightedVariance (castList valsC8) (normalizedWeights 20 minsC8))
        ≤ 1 * (5 / 2) :=
          mul_le_mul (Real.rpow_le_one_of_one_le_of_nonpos hu1 (by norm_num))
            ((Real.sqrt_le_left (by norm_num)).mpr (by nlinarith))
            (Real.sqrt_nonneg _) zero_le_one
      _ = 5 / 2 := one_mul _

lemma getProb_storeC8R :
    getProbabilityDistribution storeC8R "G H" "Points" 20 = some modelC8R := by
  unfold getProbabilityDistribution
  rw [if_neg (by rw [show (matchedGames storeC8R "G H").length = 10 from rfl]; omega),
    show (statTypeMapping.lookup "Points").join = some "points" from rfl,
    Option.some_bind,
    show ((validGames (matchedGames storeC8R "G H")).map fun g => g.stats "points")
      = valsC8 from rfl]
  rw [if_neg (by simp [valsC8]),
    show (validGames (matchedGames storeC8R "G H")).map minVal = minsC8 from rfl]
  unfold kdeFit
  rw [if_pos varC8_bounds.1]
  rfl

lemma upperBound_modelC8R : modelC8R.upperBound = 150 := by
  show 3 / 2 * listMax (castList valsC8) = 150
  unfold listMax castList valsC8
  push_cast
  norm_num [List.foldr, max_def]

lemma cdf_hi20 {z : ℝ} (hz : 20 ≤ z) : 1 - 16 / 20 ^ 5 ≤ stdNormalCDF z :=
  one_sub_le_stdNormalCDF (by norm_num) hz

set_option maxHeartbeats 1000000 in
lemma probOver_C8R_bounds :
    0.0002 < probOverThreshold modelC8R 100 ∧ probOverThreshold modelC8R 100 < 0.0004 := by
  obtain ⟨hb0, hb1⟩ := bwC8_bounds
  obtain ⟨hsl, hsu⟩ := sum_minsC8_bounds
  obtain ⟨e1l, e1u, e2l, e2u, e3l, e3u, e4l, e4u, e5l, e5u, e6l, e6u, e7l, e7u⟩ := expPow_bounds
  have hvals : modelC8R.values = castList valsC8 := rfl
  have hwts : modelC8R.weights = normalizedWeights 20 minsC8 := rfl
  have h100 : integrateBox modelC8R 100 150
      = (567 / 680 * (1 + Real.exp (-(1 / 20)) + Real.exp (-(1 / 20)) ^ 2
            + Real.exp (-(1 / 20)) ^ 3 + Real.exp (-(1 / 20)) ^ 4 + Real.exp (-(1 / 20)) ^ 5)
          * (stdNormalCDF (150 / modelC8R.bandwidth) - stdNormalCDF (100 / modelC8R.bandwidth))
        + 1 / 340 * Real.exp (-(1 / 20)) ^ 6
          * (stdNormalCDF (50 / modelC8R.bandwidth) - 1 / 2))
        / (combinedWeights 20 minsC8).sum := by
    unfold integrateBox
    rw [hvals, hwts, normalizedWeights_minsC8]
    generalize modelC8R.bandwidth = bw
    unfold castList valsC8
    simp only [List.map_cons, List.map_nil, List.zip_cons_cons, List.zip_nil_left,
      List.zip_nil_right, List.sum_cons, List.sum_nil]
    push_cast
    norm_num [stdNormalCDF_zero]
    ring
  unfold probOverThreshold clamp01
  rw [upperBound_modelC8R, h100]
  set x := Real.exp (-(1 / 20)) with hxdef
  set s := (combinedWeights 20 minsC8).sum with hsdef
  set A := stdNormalCDF (150 / modelC8R.bandwidth) with hAdef
  set B := stdNormalCDF (100 / modelC8R.bandwidth) with hBdef
  set C := stdNormalCDF (50 / modelC8R.bandwidth) with hCdef
  have hspos : (0 : ℝ) < s := by linarith
  have harg : ∀ a : ℝ, 50 ≤ a → 20 ≤ a / modelC8R.bandwidth := by
    intro a ha
    rw [le_div_iff hb0]
    nlinarith
  have hA1 : 1 - 16 / 20 ^ 5 ≤ A := cdf_hi20 (harg 150 (by norm_num))
  have hA2 : A ≤ 1 := stdNormalCDF_le_one _
  have hB1 : 1 - 16 / 20 ^ 5 ≤ B := cdf_hi20 (harg 100 (by norm_num))
  have hB2 : B ≤ 1 := stdNormalCDF_le_one _
  have hC1 : 1 - 16 / 20 ^ 5 ≤ C := cdf_hi20 (harg 50 (by norm_num))
  have hC2 : C ≤ 1 := stdNormalCDF_le_one _
  clear_value x s A B C
  clear hxdef hsdef hAdef hBdef hCdef hvals hwts harg
  have hu1l : (4.41 : ℝ) ≤ 567 / 680 * (1 + x + x ^ 2 + x ^ 3 + x ^ 4 + x ^ 5) := by linarith
  have hu1u : 567 / 680 * (1 + x + x ^ 2 + x ^ 3 + x ^ 4 + x ^ 5) ≤ 4.45 := by linarith
  have hu4l : (0.00216 : ℝ) ≤ 1 / 340 * x ^ 6 := by linarith
  have hu4u : 1 / 340 * x ^ 6 ≤ 0.002195 := by linarith
  have hpa := mul_symm_interval (by linarith : (0 : ℝ) ≤ 567 / 680
      * (1 + x + x ^ 2 + x ^ 3 + x ^ 4 + x ^ 5)) hu1u
    (by linarith : -(16 / 20 ^ 5 : ℝ) ≤ A - B) (by linarith : A - B ≤ 16 / 20 ^ 5)
  have hpb := mul_interval hu4l hu4u
    (by linarith : 1 / 2 - 16 / 20 ^ 5 ≤ C - 1 / 2) (by linarith : C - 1 / 2 ≤ 1 / 2)
    (by norm_num) (by norm_num)
  have hNl : (0.00105 : ℝ) ≤ 567 / 680 * (1 + x + x ^ 2 + x ^ 3 + x ^ 4 + x ^ 5) * (A - B)
      + 1 / 340 * x ^ 6 * (C - 1 / 2) := by
    have := hpa.1
    have := hpb.1
    linarith
  have hNu : 567 / 680 * (1 + x + x ^ 2 + x ^ 3 + x ^ 4 + x ^ 5) * (A - B)
      + 1 / 340 * x ^ 6 * (C - 1 / 2) ≤ 0.00112 := by
    have := hpa.2
    have := hpb.2
    linarith
  have hd0 : 0 < (567 / 680 * (1 + x + x ^ 2 + x ^ 3 + x ^ 4 + x ^ 5) * (A - B)
      + 1 / 340 * x ^ 6 * (C - 1 / 2)) / s := div_pos (by linarith) hspos
  have hd1 : (567 / 680 * (1 + x + x ^ 2 + x ^ 3 + x ^ 4 + x ^ 5) * (A - B)
      + 1 / 340 * x ^ 6 * (C - 1 / 2)) / s ≤ 1 := by
    rw [div_le_one hspos]
    linarith
  rw [max_eq_left hd0.le, min_eq_left hd1]
  constructor
  · rw [lt_div_iff hspos]
    linarith
  · rw [div_lt_iff hspos]
    linarith

lemma roundTo3_probOver_C8R : roundTo 3 (probOverThreshold modelC8R 100) = 0 := by
  obtain ⟨hl, hu⟩ := probOver_C8R_bounds
  unfold roundTo
  rw [show ⌊probOverThreshold modelC8R 100 * 10 ^ 3 + 1 / 2⌋ = 0 by
    rw [Int.floor_eq_iff]
    constructor
    · push_cast
      nlinarith
    · push_cast
      nlinarith]
  norm_num

lemma tableC8R_eq :
    getProbabilitiesTable storeC8R "G H" "Points" 20 (1 / 2)
      = probTable modelC8R 100 (1 / 2) := by
  unfold getProbabilitiesTable
  rw [getProb_storeC8R]
  dsimp only
  rw [show ((matchedGames storeC8R "G H").map fun g =>
      getStat g ((statTypeMapping.lookup "Points").join)).filter (fun v => decide (v ≠ 0))
      = [100] from rfl]
  rw [if_neg (by simp)]
  rw [show qListMax [100] = 100 from rfl]

lemma tableC8R_row200 :
    (probTable modelC8R 100 (1 / 2)).get? 200
      = some (100, roundTo 3 (probOverThreshold modelC8R 100)) := by
  have hk : (200 : ℕ) < Nat.ceil (((100 : ℚ) + 1 / 2) / (1 / 2)) := by
    rw [show ((100 : ℚ) + 1 / 2) / (1 / 2) = (201 : ℚ) by norm_num]
    simp
  unfold probTable
  rw [List.get?_map, List.get?_range hk]
  have ht : (Nat.cast 200 : ℝ) * (Rat.cast (1 / 2 : ℚ) : ℝ) = 100 := by
    push_cast
    norm_num
  have hr1 : roundTo 1 (100 : ℝ) = 100 := by
    unfold roundTo
    rw [show (100 : ℝ) * 10 ^ 1 + 1 / 2 = 2001 / 2 by norm_num]
    rw [show ⌊(2001 / 2 : ℝ)⌋ = 1000 by
      rw [Int.floor_eq_iff]
      norm_num]
    norm_num
  simp only [Option.map_some']
  rw [ht, hr1]

/-- C8 (counterexample): a concrete reachable table. On `storeC8R` the
pipeline fits `modelC8R` and generates its probability table; the row at
index 200 records threshold 100 with probability `round(p, 3) = 0`, while
the estimator's `probabilityOver(100)` is strictly positive. -/
theorem c8_counterexample_fit_table_roundtrip :
    getProbabilityDistribution storeC8R "G H" "Points" 20 = some modelC8R
      ∧ getProbabilitiesTable storeC8R "G H" "Points" 20 (1 / 2) = probTable modelC8R 100 (1 / 2)
      ∧ (getProbabilitiesTable storeC8R "G H" "Points" 20 (1 / 2)).get? 200
          = some (100, roundTo 3 (probOverThreshold modelC8R 100))
      ∧ roundTo 3 (probOverThreshold modelC8R 100) = 0
      ∧ probOverThreshold modelC8R 100 ≠ roundTo 3 (probOverThreshold modelC8R 100) := by
  refine ⟨getProb_storeC8R, tableC8R_eq, ?_, roundTo3_probOver_C8R, ?_⟩
  · rw [tableC8R_eq]
    exact tableC8R_row200
  · rw [roundTo3_probOver_C8R]
    have h := probOver_C8R_bounds.1
    intro hc
    rw [hc] at h
    norm_num at h

/-! ## C7 -/

lemma DNPStatsOnly.minQ_eq {g g' : Game} (h : DNPStatsOnly g g') : g.minQ = g'.minQ :=
  h.2.2.1

lemma DNPStatsOnly.playerName_eq {g g' : Game} (h : DNPStatsOnly g g') :
    g.playerName = g'.playerName := by
  unfold Game.playerName
  rw [h.1, h.2.1]

lemma DNPStatsOnly.eq_of_truthy {g g' : Game} (h : DNPStatsOnly g g')
    (ht : minTruthy g.minQ = true) : g = g' := by
  obtain ⟨h1, h2, h3, h4⟩ := h
  cases g
  cases g'
  simp only at h1 h2 h3
  simp only [h1, h2, h3, Game.mk.injEq, and_true, true_and]
  exact h4 ht

lemma minTruthy_of_pos {o : Option ℚ} (h : 0 < o.getD 0) : minTruthy o = true := by
  cases o with
  | none => simp at h
  | some q =>
    simp only [Option.getD_some] at h
    simp [minTruthy]
    intro hq
    rw [hq] at h
    exact absurd h (lt_irrefl 0)

lemma minVal_eq_of_rel {g g' : Game} (h : DNPStatsOnly g g') : minVal g = minVal g' := by
  unfold minVal
  rw [h.minQ_eq]

lemma seasonGames_congr {s s' : List Game} (h : List.Forall₂ DNPStatsOnly s s') :
    seasonGames s = seasonGames s' := by
  induction h with
  | nil => rfl
  | @cons g g' t t' hgg hrest ih =>
    unfold seasonGames at ih ⊢
    rw [List.filter_cons, List.filter_cons, hgg.minQ_eq, ih]
    by_cases hb : minTruthy g'.minQ = true
    · rw [if_pos (by simp [hb]), if_pos (by simp [hb]),
        hgg.eq_of_truthy (by rw [hgg.minQ_eq]; exact hb)]
    · rw [if_neg (by simp [hb]), if_neg (by simp [hb])]

lemma matchedGames_congr {s s' : List Game} (name : String)
    (h : List.Forall₂ DNPStatsOnly s s') :
    List.Forall₂ DNPStatsOnly (matchedGames s name) (matchedGames s' name) := by
  induction h with
  | nil => exact List.Forall₂.nil
  | @cons g g' t t' hgg hrest ih =>
    unfold matchedGames at ih ⊢
    rw [List.filter_cons, List.filter_cons, hgg.playerName_eq]
    by_cases hb : (g'.playerName == name) = true
    · rw [if_pos (by simp [hb]), if_pos (by simp [hb])]
      exact List.Forall₂.cons hgg ih
    · rw [if_neg (by simp [hb]), if_neg (by simp [hb])]
      exact ih

lemma validGames_congr {s s' : List Game} (h : List.Forall₂ DNPStatsOnly s s') :
    validGames s = validGames s' := by
  induction h with
  | nil => rfl
  | @cons g g' t t' hgg hrest ih =>
    unfold validGames at ih ⊢
    rw [List.filter_cons, List.filter_cons, minVal_eq_of_rel hgg, ih]
    by_cases hb : decide (0 < minVal g') = true
    · have hpos' : 0 < minVal g' := of_decide_eq_true hb
      have hpos : 0 < minVal g := by
        rw [minVal_eq_of_rel hgg]
        exact hpos'
      rw [if_pos (by simp [hb]), if_pos (by simp [hb]),
        hgg.eq_of_truthy (minTruthy_of_pos hpos)]
    · rw [if_neg (by simp [hb]), if_neg (by simp [hb])]

lemma getProbabilityDistribution_congr {s s' : List Game} (name statType : String)
    (W : ℕ) (h : List.Forall₂ DNPStatsOnly s s') :
    getProbabilityDistribution s name statType W
      = getProbabilityDistribution s' name statType W := by
  have hm := matchedGames_congr name h
  have hv : validGames (matchedGames s name) = validGames (matchedGames s' name) :=
    validGames_congr hm
  have hlen : (matchedGames s name).length = (matchedGames s' name).length :=
    List.Forall₂.length_eq hm
  unfold getProbabilityDistribution
  rw [hlen, hv]

lemma headPlayerName_congr {s s' : List Game} (h : List.Forall₂ DNPStatsOnly s s') :
    headPlayerName s = headPlayerName s' := by
  cases h with
  | nil => rfl
  | cons hgg _ => exact hgg.playerName_eq

/-- C7 (amended): in two runs that differ only in the stat values of
games whose minutes entry is zero or missing, every analysis output
*except the recent-window statistics* — games played, hit count, season
averages, minutes statistics, average overage, and the fitted
distribution's probabilities — is identical.  (The recent-window loop
does not filter zero-minute games, so the recent average and recent hit
rate can change; see the counterexample.) -/
theorem c7_zero_minute_stats_isolated_except_recent
    (store store' series series' : List Game) (propType : String) (line : ℚ)
    (hst : List.Forall₂ DNPStatsOnly store store')
    (hse : List.Forall₂ DNPStatsOnly series series') :
    ((analyzePlayerStats store series propType line).map nonRecentFields)
      = ((analyzePlayerStats store' series' propType line).map nonRecentFields) := by
  have hseason := seasonGames_congr hse
  have hdist := getProbabilityDistribution_congr (headPlayerName series) propType 20 hst
  have hhead := headPlayerName_congr hse
  have hvals : seasonValues series ((statTypeMapping.lookup propType).join)
      = seasonValues series' ((statTypeMapping.lookup propType).join) := by
    unfold seasonValues
    rw [hseason]
  have hmins : seasonMinutes series = seasonMinutes series' := by
    unfold seasonMinutes
    rw [hseason]
  unfold analyzePlayerStats
  rw [hvals]
  by_cases hnil : seasonValues series' ((statTypeMapping.lookup propType).join) = []
  · rw [if_pos hnil, if_pos hnil]
  · rw [if_neg hnil, if_neg hnil]
    simp only [Option.map_some']
    congr 1
    unfold nonRecentFields analysisRecord
    rw [hvals, hmins, hdist, hhead]

/-- Witness for C7 (amended): the two-game bench series pair. -/
theorem c7_zero_minute_stats_isolated_except_recent_witness :
    List.Forall₂ DNPStatsOnly seriesBench0 seriesBench100
      ∧ ((analyzePlayerStats seriesBench0 seriesBench0 "Points" 20).map nonRecentFields)
        = ((analyzePlayerStats seriesBench100 seriesBench100 "Points" 20).map nonRecentFields) := by
  have hrel : List.Forall₂ DNPStatsOnly seriesBench0 seriesBench100 := by
    refine List.Forall₂.cons ⟨rfl, rfl, rfl, fun _ => rfl⟩
      (List.Forall₂.cons ⟨rfl, rfl, rfl, fun hc => ?_⟩ List.Forall₂.nil)
    simp [gBench0, minTruthy] at hc
  exact ⟨hrel, c7_zero_minute_stats_isolated_except_recent seriesBench0 seriesBench100
    seriesBench0 seriesBench100 "Points" 20 hrel hrel⟩

/-- C7 (counterexample): mutating only the zero-minute game's stat value
(0 to 100) changes the recent average from 5 to 55 — the recent-window
statistics do read stat values of games without playing time. -/
theorem c7_counterexample_recent_average_leaks :
    List.Forall₂ DNPStatsOnly seriesBench0 seriesBench100
      ∧ ((analyzePlayerStats seriesBench0 seriesBench0 "Points" 20).map
            fun a => a.recentAverage)
          ≠ ((analyzePlayerStats seriesBench100 seriesBench100 "Points" 20).map
            fun a => a.recentAverage) := by
  constructor
  · refine List.Forall₂.cons ⟨rfl, rfl, rfl, fun _ => rfl⟩
      (List.Forall₂.cons ⟨rfl, rfl, rfl, fun hc => ?_⟩ List.Forall₂.nil)
    simp [gBench0, minTruthy] at hc
  · have hv0 : seasonValues seriesBench0 ((statTypeMapping.lookup "Points").join)
        = [10] := rfl
    have hv1 : seasonValues seriesBench100 ((statTypeMapping.lookup "Points").join)
        = [10] := rfl
    have hr0 : recentValuesOf seriesBench0 ((statTypeMapping.lookup "Points").join)
        = [10, 0] := rfl
    have hr1 : recentValuesOf seriesBench100 ((statTypeMapping.lookup "Points").join)
        = [10, 100] := rfl
    unfold analyzePlayerStats
    rw [hv0, hv1, if_neg (by simp), if_neg (by simp)]
    simp only [Option.map_some']
    unfold analysisRecord
    simp only [hr0, hr1]
    rw [if_neg (by simp), if_neg (by simp)]
    have hq0 : qmean [10, 0] = 5 := by
      norm_num [qmean]
    have hq1 : qmean [(10 : ℚ), 100] = 55 := by
      norm_num [qmean]
    rw [hq0, hq1]
    simp only [ne_eq, Option.some.injEq]
    norm_num

/-! ## C9 -/

/-- C9: a prop on which the per-item step fails (no matching player /
fewer than the minimum matched games, unknown stat type, a raising
line-score conversion, or an empty analysis — all the paths on which
`processProp` is `none`) contributes no output entry at all, and its
presence does not disturb the processing of any other prop: the ranking
over the remaining props is unchanged. -/
theorem c9_failed_prop_excluded (store : List Game) (minGames : ℕ)
    (props₁ props₂ : List PropLine) (p : PropLine)
    (hp : processProp store minGames p = none) :
    findBestProps store minGames (props₁ ++ p :: props₂)
      = findBestProps store minGames (props₁ ++ props₂) := by
  unfold findBestProps
  simp only [List.filterMap_append, List.filterMap_cons, hp]

/-- Witness for C9 at a concrete input: a prop naming an unmatched
player is dropped and the other prop is unaffected. -/
theorem c9_failed_prop_excluded_witness :
    processProp [] 5 propNobody = none
      ∧ findBestProps [] 5 ([propFantasy] ++ propNobody :: [])
        = findBestProps [] 5 ([propFantasy] ++ []) := by
  have hp : processProp [] 5 propNobody = none := by
    unfold processProp
    rw [if_pos (by simp [matchedGames])]
  exact ⟨hp, c9_failed_prop_excluded [] 5 [propFantasy] [] propNobody hp⟩

/-! ## C10 -/

lemma qmean_of_all_zero {xs : List ℚ} (h : ∀ x ∈ xs, x = 0) : qmean xs = 0 := by
  unfold qmean
  rw [List.sum_eq_zero h, zero_div]

lemma overages_eq_nil {xs : List ℚ} {line : ℚ} (hl : 0 < line)
    (h : ∀ x ∈ xs, x = 0) : overages xs line = [] := by
  unfold overages
  have hf : xs.filter (fun v => decide (line < v)) = [] := by
    rw [List.filter_eq_nil_iff]
    intro a ha
    rw [h a ha]
    simp
    linarith
  rw [hf, List.map_nil]

lemma seasonValues_none_all_zero (series : List Game) :
    ∀ v ∈ seasonValues series none, v = 0 := by
  intro v hv
  unfold seasonValues at hv
  obtain ⟨g, _, hgv⟩ := List.mem_map.mp hv
  rw [← hgv]
  rfl

lemma recentValuesOf_none_all_zero (series : List Game) :
    ∀ v ∈ recentValuesOf series none, v = 0 := by
  intro v hv
  unfold recentValuesOf at hv
  obtain ⟨g, _, hgv⟩ := List.mem_map.mp hv
  rw [← hgv]
  rfl

/-- C10: `'Fantasy Score'` is a key of STAT_TYPE_MAPPING that maps to no
stat key, so the ranking pipeline does not skip such a prop; the
analysis then reads every game's stat value through the `get(None, 0)`
default, and the pipeline emits an analyzed prop whose per-game values,
hit counts and averages are all zero instead of treating the type as
unsupported. -/
theorem c10_fantasy_score_not_skipped (store : List Game) (p : PropLine) (l : ℚ)
    (hstat : p.statType = "Fantasy Score") (hline : p.lineScore = some l) (hl : 0 < l)
    (hmin : ¬(matchedGames store p.playerName).length < 5)
    (hvals : seasonValues (matchedGames store p.playerName) none ≠ []) :
    statTypeMapping.lookup "Fantasy Score" = some none
      ∧ ∃ r, processProp store 5 p = some r
          ∧ r.analysis.averageValue = 0
          ∧ r.analysis.timesAboveLine = 0
          ∧ r.analysis.averageDifference = 0
          ∧ r.analysis.recentAverage = 0
          ∧ ∀ v ∈ r.analysis.recentValues, v = 0 := by
  refine ⟨rfl, ?_⟩
  unfold processProp
  rw [if_neg hmin, hstat]
  rw [if_neg (by simp [show statTypeMapping.lookup "Fantasy Score" = some none from rfl])]
  rw [hline]
  dsimp only
  unfold analyzePlayerStats
  rw [show (statTypeMapping.lookup "Fantasy Score").join = none from rfl]
  rw [if_neg hvals]
  simp only [Option.map_some']
  refine ⟨_, rfl, ?_, ?_, ?_, ?_, ?_⟩
  · show qmean (seasonValues (matchedGames store p.playerName) none) = 0
    exact qmean_of_all_zero (seasonValues_none_all_zero _)
  · show (overages (seasonValues (matchedGames store p.playerName) none) l).length = 0
    rw [overages_eq_nil hl (seasonValues_none_all_zero _)]
    rfl
  · show (if overages (seasonValues (matchedGames store p.playerName) none) l = [] then 0
        else qmean (overages (seasonValues (matchedGames store p.playerName) none) l)) = 0
    rw [if_pos (overages_eq_nil hl (seasonValues_none_all_zero _))]
  · show (if recentValuesOf (matchedGames store p.playerName) none = [] then 0
        else qmean (recentValuesOf (matchedGames store p.playerName) none)) = 0
    by_cases hr : recentValuesOf (matchedGames store p.playerName) none = []
    · rw [if_pos hr]
    · rw [if_neg hr]
      exact qmean_of_all_zero (recentValuesOf_none_all_zero _)
  · intro v hv
    have hv' : v ∈ recentValuesOf (matchedGames store p.playerName) none :=
      List.mem_of_mem_drop hv
    exact recentValuesOf_none_all_zero _ v hv'

/-- Witness for C10 at a concrete store and prop. -/
theorem c10_fantasy_score_not_skipped_witness :
    (¬(matchedGames storeC10 propFantasy.playerName).length < 5)
      ∧ seasonValues (matchedGames storeC10 propFantasy.playerName) none ≠ []
      ∧ (statTypeMapping.lookup "Fantasy Score" = some none
          ∧ ∃ r, processProp storeC10 5 propFantasy = some r
              ∧ r.analysis.averageValue = 0
              ∧ r.analysis.timesAboveLine = 0
              ∧ r.analysis.averageDifference = 0
              ∧ r.analysis.recentAverage = 0
              ∧ ∀ v ∈ r.analysis.recentValues, v = 0) := by
  have h1 : ¬(matchedGames storeC10 propFantasy.playerName).length < 5 := by
    rw [show (matchedGames storeC10 propFantasy.playerName).length = 5 from rfl]
    omega
  have h2 : seasonValues (matchedGames storeC10 propFantasy.playerName) none ≠ [] := by
    rw [show seasonValues (matchedGames storeC10 propFantasy.playerName) none
      = [0, 0, 0, 0, 0] from rfl]
    simp
  exact ⟨h1, h2,
    c10_fantasy_score_not_skipped storeC10 propFantasy 2 rfl rfl (by norm_num) h1 h2⟩

end NbaPicks
